import Mathlib

/-!
# ccol: handle-based containers (array, array-list, doubly linked list)

A shallow embedding of `array.c`, `arraylist.c` and `linkedlist.c`.

Modelling conventions.

* C `int` values (handles, indices, counters, `char` flags) are `Int`; no
  wrap-around is modelled.
* A `void *` payload is a `Ptr`: `none` is `NULL`, `some a` a non-null address.
* `LOADFACT` is the double `0.75`; for `int` operands the test
  `used > total * 0.75` is the integer test `3 * total < 4 * used`.
* The memory reached through a `void **` is a map from cell offsets to
  payloads (`Buffer.mem`), together with the number of cells that the last
  `malloc`/`realloc` asked for (`Buffer.cells`).  Reads and writes of a cell
  are plain reads and writes of the map, whatever the offset; `realloc` keeps
  the cells below both the old and the new size, every other cell of the new
  block is indeterminate.
* The loops of `Set` and `Remove` in the array kinds run over a range of
  cells. A call of these functions that reads or writes a cell outside the
  block (an offset below 0 or not below `Buffer.cells`) sets
  `AState.overrun`. From such an access on C gives the run no meaning; the
  other fields of the state are then those of a run in which the cells past
  the block behave as ordinary memory.
* Indeterminate memory (what `malloc` hands out, uninitialised locals) is
  supplied by a `Garbage` value that every theorem quantifies over.
* `malloc` and `realloc` are taken to succeed; `perror` output is not modelled.
* The table of slots of a registry is a map from handles to slots; its size in
  bytes is not modelled.
* Linked-list nodes live in a heap of their own, see the linked-list section;
  there a read or write through `NULL` or a freed node has no result.

The file has two parts: the definitions (the embedding, then the derived
operations and the predicates the statements use) and the theorems.
-/

namespace Ccol

/-- A `void *` payload: `none` is `NULL`. -/
abbrev Ptr := Option Nat

/-- The block a `void **buckets` field points to. -/
structure Buffer where
  /-- the pointer is `NULL` -/
  null : Bool
  /-- the block has been handed to `free` -/
  freed : Bool
  /-- number of `void *` cells requested by the last `malloc`/`realloc` -/
  cells : Int
  /-- contents, by cell offset -/
  mem : Int → Ptr

/-- The C `struct _Array` of array.c:47 and arraylist.c:59. -/
structure _Array where
  total_buckets : Int
  used_buckets : Int
  buckets : Buffer

/-- The C `struct _Controller` of array.c:41 and arraylist.c:53; `null` says
that the `buckets` table pointer is `NULL`. -/
structure _Controller where
  total_buckets : Int
  used_buckets : Int
  null : Bool
  buckets : Int → _Array

/-- The C `struct _Iterator` (array.h:37) without its four function pointers:
each constructor installs the functions of its own kind, and a call through
them is modelled as a call of that function. -/
structure _Iterator where
  handler : Int
  carriage : Int
  total_elems : Int
  hasnext : Int
  hasprev : Int
deriving DecidableEq, Repr

/-- Indeterminate values: contents of fresh heap cells, of a fresh slot table,
and of an uninitialised local iterator. -/
structure Garbage where
  cell : Int → Ptr
  slot : Int → _Array
  it : _Iterator

/-- Program state of one array-style kind: its file-static `controller` and
the global `errno`, and a record of memory safety: `overrun` is set by a
call of `Set` or `Remove` that reads or writes a cell outside the block its
`buckets` pointer refers to. C gives no meaning to the run from such an access
on; the other fields are then those of a run in which the cells past the
block behave as ordinary memory. -/
structure AState where
  controller : _Controller
  errno : Int
  overrun : Bool := false

def EXPRATE : Int := 2
def INITCAPACITY : Int := 30
def A_EXPRATE : Int := 2
def A_INITCAPACITY : Int := 30
def ENOMEM : Int := 12
def EFAULT : Int := 14
def EINVAL : Int := 22

/-- State at program start: the static `controller` is zero-initialised. -/
def Ainit (g : Garbage) : AState :=
  { controller := { total_buckets := 0, used_buckets := 0, null := true, buckets := g.slot },
    errno := 0, overrun := false }

/-- The result of `malloc(sizeof(void **) * n)`. -/
def malloc (g : Garbage) (n : Int) : Buffer :=
  { null := false, freed := false, cells := n, mem := g.cell }

/-- The result of `realloc(b, sizeof(void **) * n)`. -/
def realloc (g : Garbage) (b : Buffer) (n : Int) : Buffer :=
  { null := false, freed := false, cells := n,
    mem := fun k => if 0 ≤ k ∧ k < b.cells ∧ k < n then b.mem k else g.cell k }

/-- The effect of `free(b)` on the block. -/
def free (b : Buffer) : Buffer := { b with freed := true }

/-- The assignment `b[j] = v`. -/
def Buffer.write (b : Buffer) (j : Int) (v : Ptr) : Buffer :=
  { b with mem := fun k => if k = j then v else b.mem k }

/-- The assignment `controller.buckets[h] = a`. -/
def _Controller.store (c : _Controller) (h : Int) (a : _Array) : _Controller :=
  { c with buckets := fun k => if k = h then a else c.buckets k }

/-- The C `check` of array.c:256; arraylist.c:266 has the same body, written
with `A_EXPRATE` and `A_LOADFACT`, which have the same values. -/
def check (g : Garbage) (a : _Array) : _Array :=
  if 3 * a.total_buckets < 4 * a.used_buckets then
    { a with buckets := realloc g a.buckets (a.used_buckets * EXPRATE),
             total_buckets := a.total_buckets * EXPRATE }
  else a

/-- The loop of `getfree`/`getfreearray`: `h` is the current `handler`. -/
def getfreeLoop (c : _Controller) : Nat → Int → Int
  | 0, h => h
  | n + 1, h =>
    if h < c.used_buckets ∧ (c.buckets h).buckets.null = false then getfreeLoop c n (h + 1)
    else h

/-- The C `getfree` of array.c:272; the loop runs at most `used_buckets` times. -/
def getfree (c : _Controller) : Int := getfreeLoop c c.used_buckets.toNat 0

/-- The C `getfreearray` of arraylist.c:282. -/
def getfreearray (c : _Controller) : Int := getfreeLoop c c.used_buckets.toNat 0

/-- The first two blocks of `Anew` (array.c:79-95) and of `ALnew`
(arraylist.c:90-106, the same text with the `A_` constants): lazy allocation
of the table and its growth. -/
def growTable (g : Garbage) (c : _Controller) : _Controller :=
  let c1 : _Controller :=
    if c.null then { c with null := false, buckets := g.slot, total_buckets := INITCAPACITY }
    else c
  if 3 * c1.total_buckets < 4 * c1.used_buckets then
    { c1 with total_buckets := c1.total_buckets * EXPRATE }
  else c1

/-- The C `Anew` of array.c:74; `init_size` is ignored by the code. -/
def Anew (g : Garbage) (s : AState) (_init_size : Int) : Int × AState :=
  let c := growTable g s.controller
  let handler := getfree c
  let array : _Array :=
    { total_buckets := INITCAPACITY, used_buckets := 0, buckets := malloc g INITCAPACITY }
  let c2 := c.store handler array
  (handler, { s with controller := { c2 with used_buckets := c.used_buckets + 1 } })

/-- The C `Apurge` of array.c:109: the new block is assigned to a local only,
the slot keeps the freed one. -/
def Apurge (s : AState) (handler : Int) : AState :=
  if handler ≤ s.controller.used_buckets then
    let a := s.controller.buckets handler
    let a1 : _Array :=
      { total_buckets := INITCAPACITY, used_buckets := 0, buckets := free a.buckets }
    { s with controller := s.controller.store handler a1 }
  else { s with errno := EFAULT }

/-- The C `Adispose` of array.c:127. -/
def Adispose (s : AState) (handler : Int) : AState :=
  if handler ≤ s.controller.used_buckets then
    let a := s.controller.buckets handler
    let a1 : _Array := { total_buckets := 0, used_buckets := 0, buckets := free a.buckets }
    { s with controller := s.controller.store handler a1 }
  else { s with errno := EFAULT }

/-- The C `Aadd` of array.c:141. -/
def Aadd (g : Garbage) (s : AState) (handler : Int) (elem : Ptr) : Ptr × AState :=
  if handler ≤ s.controller.used_buckets then
    let a := s.controller.buckets handler
    let a1 : _Array :=
      { a with buckets := a.buckets.write a.used_buckets elem, used_buckets := a.used_buckets + 1 }
    (elem, { s with controller := s.controller.store handler (check g a1) })
  else (elem, { s with errno := EFAULT })

/-- The C `Aget` of array.c:156. -/
def Aget (s : AState) (handler : Int) (i : Int) : Ptr × AState :=
  if handler ≤ s.controller.used_buckets then
    if i ≤ (s.controller.buckets handler).total_buckets then
      ((s.controller.buckets handler).buckets.mem i, s)
    else (none, s)
  else (none, { s with errno := EFAULT })

/-- The shifting loop of `Aset`/`ALset`: `n` iterations starting at offset `j`,
with `next` the value carried into cell `j`. -/
def shiftRight : Nat → Int → Ptr → Buffer → Buffer
  | 0, _, _, b => b
  | n + 1, j, next, b => shiftRight n (j + 1) (b.mem j) (b.write j next)

/-- The shifting loop of `Aremove`/`ALremove`: `n` iterations starting at
offset `j`, each doing `b[j-1] = b[j]`. -/
def shiftLeft : Nat → Int → Buffer → Buffer
  | 0, _, b => b
  | n + 1, j, b => shiftLeft n (j + 1) (b.write (j - 1) (b.mem j))

/-- Offset `j` is one of the cells of the block. -/
def Buffer.inside (b : Buffer) (j : Int) : Bool := decide (0 ≤ j ∧ j < b.cells)

/-- Whether the shifting loop of `Aset`/`ALset` stays inside the block: `n`
iterations starting at offset `j`, each reading and writing cell `j`. -/
def shiftRightInside (b : Buffer) : Nat → Int → Bool
  | 0, _ => true
  | n + 1, j => b.inside j && shiftRightInside b n (j + 1)

/-- Whether the shifting loop of `Aremove`/`ALremove` stays inside the block:
`n` iterations starting at offset `j`, each reading cell `j` and writing cell
`j - 1`. -/
def shiftLeftInside (b : Buffer) : Nat → Int → Bool
  | 0, _ => true
  | n + 1, j => b.inside j && b.inside (j - 1) && shiftLeftInside b n (j + 1)

/-- The C `Aset` of array.c:168.  The loop runs for `j = i+1, …, total_buckets`,
that is `total_buckets - i` times. `inblock` says that the accesses
`a->buckets[i]` and those of the loop all fall inside the block; otherwise the
call sets `overrun`. -/
def Aset (g : Garbage) (s : AState) (handler : Int) (i : Int) (elem : Ptr) : Ptr × AState :=
  if handler ≤ s.controller.used_buckets ∧ i ≤ (s.controller.buckets handler).total_buckets then
    let a := s.controller.buckets handler
    let inblock := a.buckets.inside i &&
      shiftRightInside a.buckets (a.total_buckets - i).toNat (i + 1)
    let b1 := a.buckets.write i elem
    let b2 := shiftRight (a.total_buckets - i).toNat (i + 1) (a.buckets.mem i) b1
    let a1 : _Array := { a with buckets := b2, used_buckets := a.used_buckets + 1 }
    (elem, { s with controller := s.controller.store handler (check g a1),
                    overrun := s.overrun || !inblock })
  else (elem, { s with errno := EFAULT })

/-- The C `Aremove` of array.c:192. `inblock` says that the read of
`a->buckets[i]` and the accesses of the loop all fall inside the block;
otherwise the call sets `overrun`. -/
def Aremove (s : AState) (handler : Int) (i : Int) : Ptr × AState :=
  if handler ≤ s.controller.used_buckets ∧ i ≤ (s.controller.buckets handler).total_buckets then
    let a := s.controller.buckets handler
    let inblock := a.buckets.inside i &&
      shiftLeftInside a.buckets (a.total_buckets - i).toNat (i + 1)
    let elem := a.buckets.mem i
    let b := shiftLeft (a.total_buckets - i).toNat (i + 1) a.buckets
    let a1 : _Array := { a with buckets := b, used_buckets := a.used_buckets - 1 }
    (elem, { s with controller := s.controller.store handler a1,
                    overrun := s.overrun || !inblock })
  else (none, { s with errno := EFAULT })

/-- The C `Asize` of array.c:212. -/
def Asize (s : AState) (handler : Int) : Int × AState :=
  if handler ≤ s.controller.used_buckets then
    ((s.controller.buckets handler).used_buckets, s)
  else (-1, { s with errno := EFAULT })

/-- The C `Aupdateit` of array.c:301. -/
def Aupdateit (s : AState) (it : _Iterator) : _Iterator :=
  let total := (s.controller.buckets it.handler).used_buckets
  { it with total_elems := total,
            hasnext := if it.carriage < total then 1 else 0,
            hasprev := if it.carriage > 0 then 1 else 0 }

/-- The C `Aitnext` of array.c:281. -/
def Aitnext (s : AState) (it : _Iterator) : Ptr × _Iterator :=
  if it.hasnext ≠ 0 then
    ((s.controller.buckets it.handler).buckets.mem it.carriage,
      Aupdateit s { it with carriage := it.carriage + 1 })
  else (none, it)

/-- The C `Aitprev` of array.c:291. -/
def Aitprev (s : AState) (it : _Iterator) : Ptr × _Iterator :=
  if it.hasprev ≠ 0 then
    ((s.controller.buckets it.handler).buckets.mem (it.carriage - 1),
      Aupdateit s { it with carriage := it.carriage - 1 })
  else (none, it)

/-- The C `ALnew` of arraylist.c:85. -/
def ALnew (g : Garbage) (s : AState) (init_size : Int) : Int × AState :=
  let c := growTable g s.controller
  let handler := getfreearray c
  let array : _Array :=
    { total_buckets := init_size, used_buckets := 0, buckets := malloc g init_size }
  let c2 := c.store handler array
  (handler, { s with controller := { c2 with used_buckets := c.used_buckets + 1 } })

/-- The C `ALpurge` of arraylist.c:120. -/
def ALpurge (g : Garbage) (s : AState) (handler : Int) : AState :=
  if handler ≤ s.controller.used_buckets then
    let a1 : _Array :=
      { total_buckets := A_INITCAPACITY, used_buckets := 0, buckets := malloc g A_INITCAPACITY }
    { s with controller := s.controller.store handler a1 }
  else { s with errno := EFAULT }

/-- The C `ALdispose` of arraylist.c:136. -/
def ALdispose (s : AState) (handler : Int) : AState :=
  if handler ≤ s.controller.used_buckets then
    let a := s.controller.buckets handler
    let b := if a.buckets.null = false then free a.buckets else a.buckets
    let a1 : _Array := { total_buckets := 0, used_buckets := 0, buckets := b }
    let c := s.controller.store handler a1
    { s with controller := { c with used_buckets := c.used_buckets - 1 } }
  else { s with errno := EFAULT }

/-- The C `ALadd` of arraylist.c:151. -/
def ALadd (g : Garbage) (s : AState) (handler : Int) (elem : Ptr) : Ptr × AState :=
  if handler ≤ s.controller.used_buckets then
    let a := s.controller.buckets handler
    let a1 : _Array :=
      { a with buckets := a.buckets.write a.used_buckets elem, used_buckets := a.used_buckets + 1 }
    (elem, { s with controller := s.controller.store handler (check g a1) })
  else (elem, { s with errno := EFAULT })

/-- The C `ALget` of arraylist.c:166. -/
def ALget (s : AState) (handler : Int) (i : Int) : Ptr × AState :=
  if handler ≤ s.controller.used_buckets then
    if i ≤ (s.controller.buckets handler).total_buckets then
      ((s.controller.buckets handler).buckets.mem i, s)
    else (none, s)
  else (none, { s with errno := EFAULT })

/-- The C `ALset` of arraylist.c:178; the index is compared with
`used_buckets`. As in `Aset`, a call whose accesses do not all fall inside the
block sets `overrun`. -/
def ALset (g : Garbage) (s : AState) (handler : Int) (i : Int) (elem : Ptr) : Ptr × AState :=
  if handler ≤ s.controller.used_buckets ∧ i ≤ (s.controller.buckets handler).used_buckets then
    let a := s.controller.buckets handler
    let inblock := a.buckets.inside i &&
      shiftRightInside a.buckets (a.total_buckets - i).toNat (i + 1)
    let b1 := a.buckets.write i elem
    let b2 := shiftRight (a.total_buckets - i).toNat (i + 1) (a.buckets.mem i) b1
    let a1 : _Array := { a with buckets := b2, used_buckets := a.used_buckets + 1 }
    (elem, { s with controller := s.controller.store handler (check g a1),
                    overrun := s.overrun || !inblock })
  else (elem, { s with errno := EFAULT })

/-- The C `ALremove` of arraylist.c:202. As in `Aremove`, a call whose
accesses do not all fall inside the block sets `overrun`. -/
def ALremove (s : AState) (handler : Int) (i : Int) : Ptr × AState :=
  if handler ≤ s.controller.used_buckets ∧ i ≤ (s.controller.buckets handler).total_buckets then
    let a := s.controller.buckets handler
    let inblock := a.buckets.inside i &&
      shiftLeftInside a.buckets (a.total_buckets - i).toNat (i + 1)
    let elem := a.buckets.mem i
    let b := shiftLeft (a.total_buckets - i).toNat (i + 1) a.buckets
    let a1 : _Array := { a with buckets := b, used_buckets := a.used_buckets - 1 }
    (elem, { s with controller := s.controller.store handler a1,
                    overrun := s.overrun || !inblock })
  else (none, { s with errno := EFAULT })

/-- The C `ALsize` of arraylist.c:222. -/
def ALsize (s : AState) (handler : Int) : Int × AState :=
  if handler ≤ s.controller.used_buckets then
    ((s.controller.buckets handler).used_buckets, s)
  else (-1, { s with errno := EFAULT })

/-- The C `ALupdateit` of arraylist.c:311. -/
def ALupdateit (s : AState) (it : _Iterator) : _Iterator :=
  let total := (s.controller.buckets it.handler).used_buckets
  { it with total_elems := total,
            hasnext := if it.carriage < total then 1 else 0,
            hasprev := if it.carriage > 0 then 1 else 0 }

/-- The C `ALitnext` of arraylist.c:291. -/
def ALitnext (s : AState) (it : _Iterator) : Ptr × _Iterator :=
  if it.hasnext ≠ 0 then
    ((s.controller.buckets it.handler).buckets.mem it.carriage,
      ALupdateit s { it with carriage := it.carriage + 1 })
  else (none, it)

/-- The C `ALitprev` of arraylist.c:301. -/
def ALitprev (s : AState) (it : _Iterator) : Ptr × _Iterator :=
  if it.hasprev ≠ 0 then
    ((s.controller.buckets it.handler).buckets.mem (it.carriage - 1),
      ALupdateit s { it with carriage := it.carriage - 1 })
  else (none, it)

/-- The C `struct _Node` of linkedlist.c:58, node pointers being heap
addresses; its `enabled` field is never read or written and is left out. -/
structure _Node where
  next : Option Nat
  prev : Option Nat
  data : Ptr
deriving DecidableEq, Repr

/-- The C `struct _LinkedList` of linkedlist.c:66. -/
structure _LinkedList where
  used_buckets : Int
  head : Option Nat
  tail : Option Nat
deriving DecidableEq, Repr

/-- The C `struct _Controller` of linkedlist.c:52. -/
structure LL_Controller where
  total_buckets : Int
  used_buckets : Int
  null : Bool
  buckets : Int → _LinkedList

/-- Program state of the linked-list kind: the static `controller`, the node
heap and `errno`. -/
structure LLState where
  controller : LL_Controller
  heap : List (Option _Node)
  errno : Int

def LL_EXPRATE : Int := 2
def LL_INITCAPACITY : Int := 30

/-- State at program start; `junk` is what the slot table will contain when
`malloc` hands it out. -/
def LLinit (junk : Int → _LinkedList) : LLState :=
  { controller := { total_buckets := 0, used_buckets := 0, null := true, buckets := junk },
    heap := [], errno := 0 }

/-- Reading the node a pointer refers to. -/
def rd (heap : List (Option _Node)) (p : Option Nat) : Option _Node :=
  match p with
  | none => none
  | some a => (heap[a]?).join

/-- The assignment `controller.buckets[h] = l`. -/
def LL_Controller.store (c : LL_Controller) (h : Int) (l : _LinkedList) : LL_Controller :=
  { c with buckets := fun k => if k = h then l else c.buckets k }

/-- The C `validhandler` of linkedlist.c:316. -/
def validhandler (s : LLState) (handler : Int) : Int × LLState :=
  if handler < s.controller.used_buckets then (1, s) else (0, { s with errno := EFAULT })

/-- The loop of `getfreelist`. -/
def getfreelistLoop (c : LL_Controller) : Nat → Int → Int
  | 0, h => h
  | n + 1, h =>
    if h < c.used_buckets ∧ (c.buckets h).head ≠ none then getfreelistLoop c n (h + 1) else h

/-- The C `getfreelist` of linkedlist.c:307. -/
def getfreelist (c : LL_Controller) : Int := getfreelistLoop c c.used_buckets.toNat 0

/-- The C `LLnew` of linkedlist.c:91; `junk` is the content of the slot table
when it is first allocated. Only `used_buckets` of the slot is written. -/
def LLnew (junk : Int → _LinkedList) (s : LLState) : Int × LLState :=
  let c0 := s.controller
  let c1 : LL_Controller :=
    if c0.null then { c0 with null := false, buckets := junk, total_buckets := LL_INITCAPACITY }
    else c0
  let c2 : LL_Controller :=
    if 3 * c1.total_buckets < 4 * c1.used_buckets then
      { c1 with total_buckets := c1.total_buckets * LL_EXPRATE }
    else c1
  let handler := getfreelist c2
  let c3 : LL_Controller := { c2 with used_buckets := c2.used_buckets + 1 }
  let l := c3.buckets handler
  (handler, { s with controller := c3.store handler { l with used_buckets := 0 } })

/-- The loop `while (n != NULL) { prev = n; n = n->next; }` of `LLadd`,
entered with `n` the non-null address `a`: the last value of `prev`. -/
def lastNode (heap : List (Option _Node)) : Nat → Nat → Option Nat
  | 0, _ => none
  | fuel + 1, a =>
    match rd heap (some a) with
    | none => none
    | some nd =>
      match nd.next with
      | none => some a
      | some b => lastNode heap fuel b

/-- The C `LLadd` of linkedlist.c:142. -/
def LLadd (s : LLState) (handler : Int) (elem : Ptr) : Option (Ptr × LLState) :=
  if (validhandler s handler).1 ≠ 0 then
    let l := s.controller.buckets handler
    let n := s.heap.length
    match l.head with
    | none =>
      let heap := s.heap ++ [some { next := none, prev := none, data := elem }]
      let l1 : _LinkedList := { l with head := some n, used_buckets := l.used_buckets + 1 }
      some (elem, { s with heap := heap, controller := s.controller.store handler l1 })
    | some hd =>
      match lastNode s.heap (s.heap.length + 1) hd with
      | none => none
      | some prev =>
        match rd s.heap (some prev) with
        | none => none
        | some pn =>
          let heap := (s.heap.set prev (some { pn with next := some n })) ++
            [some { next := none, prev := some prev, data := elem }]
          let l1 : _LinkedList := { l with used_buckets := l.used_buckets + 1 }
          some (elem, { s with heap := heap, controller := s.controller.store handler l1 })
  else some (elem, (validhandler s handler).2)

/-- The loop `for (c = 0; c < k; c++) n = n->next;`. -/
def nth (heap : List (Option _Node)) : Nat → Option Nat → Option (Option Nat)
  | 0, n => some n
  | k + 1, n =>
    match rd heap n with
    | none => none
    | some nd => nth heap k nd.next

/-- The C `LLget` of linkedlist.c:174. -/
def LLget (s : LLState) (handler : Int) (i : Int) : Option (Ptr × LLState) :=
  if (validhandler s handler).1 ≠ 0 then
    let l := s.controller.buckets handler
    if i < l.used_buckets then
      match nth s.heap i.toNat l.head with
      | none => none
      | some n =>
        match rd s.heap n with
        | none => none
        | some nd => some (nd.data, s)
    else some (none, s)
  else some (none, (validhandler s handler).2)

/-- The C `LLset` of linkedlist.c:190. -/
def LLset (s : LLState) (handler : Int) (i : Int) (elem : Ptr) : Option (Ptr × LLState) :=
  if (validhandler s handler).1 ≠ 0 ∧ 0 ≤ i ∧ i < (s.controller.buckets handler).used_buckets then
    let l := s.controller.buckets handler
    match nth s.heap i.toNat l.head with
    | none => none
    | some none => none
    | some (some a) =>
      match rd s.heap (some a) with
      | none => none
      | some nd =>
        let newnode := s.heap.length
        let heap1 : Option (List (Option _Node)) :=
          match nd.prev with
          | none => some s.heap
          | some p =>
            match rd s.heap (some p) with
            | none => none
            | some pn => some (s.heap.set p (some { pn with next := some newnode }))
        match heap1 with
        | none => none
        | some h1 =>
          match rd h1 (some a) with
          | none => none
          | some nd1 =>
            let head := if some a = l.head then some newnode else l.head
            let h2 := h1.set a (some { nd1 with prev := some newnode })
            let h3 := h2 ++ [some { next := some a, prev := nd.prev, data := elem }]
            let l1 : _LinkedList := { l with head := head, used_buckets := l.used_buckets + 1 }
            some (elem, { s with heap := h3, controller := s.controller.store handler l1 })
  else if (validhandler s handler).1 ≠ 0 then some (elem, s)
  else some (elem, (validhandler s handler).2)

/-- The loop `while (n && (c < i)) { n = n->next; }` of `LLremove`; `c` is
not changed by the body. -/
def removeWalk (heap : List (Option _Node)) (i : Int) : Nat → Option Nat → Int → Option (Option Nat)
  | 0, _, _ => none
  | fuel + 1, n, c =>
    if n ≠ none ∧ c < i then
      match rd heap n with
      | none => none
      | some nd => removeWalk heap i fuel nd.next c
    else some n

/-- The assignment `p->prev = v` for a non-null `p`. -/
def setPrev (heap : List (Option _Node)) (p : Nat) (v : Option Nat) :
    Option (List (Option _Node)) :=
  match rd heap (some p) with
  | none => none
  | some nd => some (heap.set p (some { nd with prev := v }))

/-- The assignment `p->next = v` for a non-null `p`. -/
def setNext (heap : List (Option _Node)) (p : Nat) (v : Option Nat) :
    Option (List (Option _Node)) :=
  match rd heap (some p) with
  | none => none
  | some nd => some (heap.set p (some { nd with next := v }))

/-- The tail of `LLremove` common to all branches: `elem = n->data; free(n);
a->used_buckets--` for the node pointer `n`. -/
def removeFinish (s : LLState) (handler : Int) (heap : List (Option _Node))
    (l : _LinkedList) (n : Option Nat) : Option (Ptr × LLState) :=
  match n, rd heap n with
  | some a, some nd =>
    let l1 : _LinkedList := { l with used_buckets := l.used_buckets - 1 }
    some (nd.data, { s with heap := heap.set a none, controller := s.controller.store handler l1 })
  | _, _ => none

/-- The C `LLremove` of linkedlist.c:226. -/
def LLremove (s : LLState) (handler : Int) (i : Int) : Option (Ptr × LLState) :=
  if (validhandler s handler).1 ≠ 0 then
    let l := s.controller.buckets handler
    match l.head with
    | none => some (none, { s with errno := EINVAL })
    | some hd =>
      if 0 < i then
        match removeWalk s.heap i (s.heap.length + 1) (some hd) 0 with
        | none => none
        | some n =>
          match rd s.heap n with
          | none => none
          | some nd =>
            let heap1 : Option (List (Option _Node)) :=
              match nd.next with
              | none => some s.heap
              | some nx => setPrev s.heap nx nd.prev
            match heap1 with
            | none => none
            | some h1 =>
              match rd h1 n with
              | none => none
              | some nd1 =>
                let heap2 : Option (List (Option _Node)) :=
                  match nd1.prev with
                  | none => some h1
                  | some pv => setNext h1 pv nd1.next
                match heap2 with
                | none => none
                | some h2 => removeFinish s handler h2 l n
      else if i = 0 then
        match rd s.heap (some hd) with
        | none => none
        | some hn =>
          let heap1 : Option (List (Option _Node)) :=
            match hn.next with
            | none => some s.heap
            | some nx => setPrev s.heap nx none
          match heap1 with
          | none => none
          | some h1 =>
            match rd h1 (some hd) with
            | none => none
            | some hn1 => removeFinish s handler h1 { l with head := hn1.next } (some hd)
      else removeFinish s handler s.heap l (some hd)
  else some (none, (validhandler s handler).2)

/-- The loop of `LLpurge`: `while (used_buckets > 0) LLremove(handler, 0);`. -/
def purgeLoop (handler : Int) : Nat → LLState → Option LLState
  | 0, s => if 0 < (s.controller.buckets handler).used_buckets then none else some s
  | fuel + 1, s =>
    if 0 < (s.controller.buckets handler).used_buckets then
      match LLremove s handler 0 with
      | none => none
      | some r => purgeLoop handler fuel r.2
    else some s

/-- The C `LLpurge` of linkedlist.c:118. Each pass of its loop that returns
lowers `used_buckets` by one or leaves the state as it is, so
`used_buckets` passes decide whether the loop ends. -/
def LLpurge (s : LLState) (handler : Int) : Option LLState :=
  if (validhandler s handler).1 ≠ 0 then
    match purgeLoop handler (s.controller.buckets handler).used_buckets.toNat s with
    | none => none
    | some s1 =>
      let l1 : _LinkedList := { used_buckets := 0, head := none, tail := none }
      some { s1 with controller := s1.controller.store handler l1 }
  else some (validhandler s handler).2

/-- The C `LLdispose` of linkedlist.c:130. -/
def LLdispose (s : LLState) (handler : Int) : Option LLState :=
  if (validhandler s handler).1 ≠ 0 then
    match LLpurge s handler with
    | none => none
    | some s1 =>
      let l1 : _LinkedList := { used_buckets := 0, head := none, tail := none }
      some { s1 with controller := s1.controller.store handler l1 }
  else some (validhandler s handler).2

/-- The C `LLsize` of linkedlist.c:264. -/
def LLsize (s : LLState) (handler : Int) : Int × LLState :=
  if (validhandler s handler).1 ≠ 0 then ((s.controller.buckets handler).used_buckets, s)
  else (-1, (validhandler s handler).2)

/-- The C `LLupdateit` of linkedlist.c:357. -/
def LLupdateit (s : LLState) (it : _Iterator) : _Iterator :=
  let total := (s.controller.buckets it.handler).used_buckets
  { it with total_elems := total,
            hasnext := if it.carriage < total then 1 else 0,
            hasprev := if it.carriage > 0 then 1 else 0 }

/-- The C `LLiterator` of linkedlist.c:288; `it0` is the uninitialised local. -/
def LLiterator (it0 : _Iterator) (s : LLState) (handler : Int) : _Iterator × LLState :=
  if (validhandler s handler).1 ≠ 0 then
    (LLupdateit s { it0 with handler := handler, carriage := 0 }, s)
  else (it0, (validhandler s handler).2)

/-- The C `LLitnext` of linkedlist.c:325. -/
def LLitnext (s : LLState) (it : _Iterator) : Option (Ptr × _Iterator) :=
  if it.hasnext ≠ 0 then
    match nth s.heap it.carriage.toNat (s.controller.buckets it.handler).head with
    | none => none
    | some n =>
      match rd s.heap n with
      | none => none
      | some nd => some (nd.data, LLupdateit s { it with carriage := it.carriage + 1 })
  else some (none, it)

/-- The C `LLitprev` of linkedlist.c:341: after `carriage--` the loop
`for (i = 1; i < carriage; i++)` makes `carriage - 1` steps from the head
(none when `carriage ≤ 1`). -/
def LLitprev (s : LLState) (it : _Iterator) : Option (Ptr × _Iterator) :=
  if it.hasprev ≠ 0 then
    let carriage := it.carriage - 1
    match nth s.heap (carriage - 1).toNat (s.controller.buckets it.handler).head with
    | none => none
    | some n =>
      match rd s.heap n with
      | none => none
      | some nd => some (nd.data, LLupdateit s { it with carriage := carriage })
  else some (none, it)

/-- Repeated `Aadd` of the elements of `es`, in order, on handle `h`. -/
def Aadds (g : Garbage) (s : AState) (h : Int) (es : List Ptr) : AState :=
  es.foldl (fun t e => (Aadd g t h e).2) s

/-- Repeated `ALadd` of the elements of `es`, in order, on handle `h`. -/
def ALadds (g : Garbage) (s : AState) (h : Int) (es : List Ptr) : AState :=
  es.foldl (fun t e => (ALadd g t h e).2) s

/-- A concrete supply of indeterminate values, used to instantiate the
theorems. -/
def g0 : Garbage :=
  { cell := fun k => some (1000 + k.natAbs),
    slot := fun k =>
      { total_buckets := 5 - k, used_buckets := 77,
        buckets := { null := false, freed := true, cells := 3, mem := fun j => some (j.natAbs) } },
    it := { handler := 9, carriage := 8, total_elems := 7, hasnext := 1, hasprev := 1 } }

/-- Slot `a` stores exactly the elements `es`, with room for the next `Aadd`. -/
structure SlotHolds (a : _Array) (es : List Ptr) : Prop where
  used : a.used_buckets = es.length
  total_pos : 1 ≤ a.total_buckets
  load : 4 * a.used_buckets ≤ 3 * a.total_buckets
  room : 3 * a.total_buckets < 4 * a.buckets.cells
  mem : ∀ k : Nat, k < es.length → es[k]? = some (a.buckets.mem k)

/-- Handle `h` is accepted by the array operations and its slot stores `es`. -/
def AHolds (s : AState) (h : Int) (es : List Ptr) : Prop :=
  h ≤ s.controller.used_buckets ∧ SlotHolds (s.controller.buckets h) es

/-- A fresh array (`Anew` in state `s`) followed by `Aadd` of `es`: the handle
and the resulting state. -/
def Abuild (g : Garbage) (s : AState) (z : Int) (es : List Ptr) : Int × AState :=
  ((Anew g s z).1, Aadds g (Anew g s z).2 (Anew g s z).1 es)

/-- A fresh array-list (`ALnew` with capacity `c` in state `s`) followed by
`ALadd` of `es`: the handle and the resulting state. -/
def ALbuild (g : Garbage) (s : AState) (c : Int) (es : List Ptr) : Int × AState :=
  ((ALnew g s c).1, ALadds g (ALnew g s c).2 (ALnew g s c).1 es)

/-- The outcome of `Remove(h, i)` on a container holding `es`, as the
specification states it: `ret` is the returned element, `size` and `get` are
`Size(h)` and `Get(h, ·)` afterwards. -/
def RemovedAt (es : List Ptr) (i : Nat) (ret : Ptr) (size : Int) (get : Int → Ptr) : Prop :=
  es[i]? = some ret ∧ size = (es.length : Int) - 1 ∧
  (∀ k : Nat, k < i → es[k]? = some (get k)) ∧
  (∀ k : Nat, i ≤ k → k + 1 < es.length → es[k + 1]? = some (get k))

/-- The outcome of `Set(h, i, x)` on a container holding `es`, as the
specification states it: `ret` is the returned element, `size` and `get` are
`Size(h)` and `Get(h, ·)` afterwards. -/
def InsertedAt (es : List Ptr) (i : Nat) (x : Ptr) (ret : Ptr) (size : Int)
    (get : Int → Ptr) : Prop :=
  ret = x ∧ size = (es.length : Int) + 1 ∧
  (∀ k : Nat, k < i → es[k]? = some (get k)) ∧
  get i = x ∧
  (∀ k : Nat, i ≤ k → k < es.length → es[k]? = some (get (k + 1)))

/-- Repeated `LLadd` of the elements of `es`, in order, on handle `h`. -/
def LLadds (s : LLState) (h : Int) : List Ptr → Option LLState
  | [] => some s
  | e :: es =>
    match LLadd s h e with
    | none => none
    | some r => LLadds r.2 h es

/-- Slot `h` is a valid handle of an empty list: no element and a `NULL` head. -/
def LLempty (s : LLState) (h : Int) : Prop :=
  h < s.controller.used_buckets ∧ (s.controller.buckets h).used_buckets = 0 ∧
  (s.controller.buckets h).head = none

/-- A slot table whose heads read as `NULL`, used to instantiate the theorems. -/
def junk0 : Int → _LinkedList := fun _ => { used_buckets := 5, head := none, tail := none }

/-- The nodes `ns` (address and payload, in order) form a doubly linked chain
in `heap`: distinct addresses, each node linked to its neighbours. -/
def Chain (heap : List (Option _Node)) (ns : List (Nat × Ptr)) : Prop :=
  (∀ (j k a : Nat) (x y : Ptr), ns[j]? = some (a, x) → ns[k]? = some (a, y) → j = k) ∧
  ∀ (k a : Nat) (x : Ptr), ns[k]? = some (a, x) →
    heap[a]? = some (some { next := (ns[k + 1]?).map Prod.fst,
                            prev := if k = 0 then none else (ns[k - 1]?).map Prod.fst,
                            data := x })

/-- Handle `h` is valid and its slot is the list of the nodes `ns`. -/
def LLHolds (s : LLState) (h : Int) (ns : List (Nat × Ptr)) : Prop :=
  h < s.controller.used_buckets ∧
  (s.controller.buckets h).used_buckets = ns.length ∧
  (s.controller.buckets h).head = (ns[0]?).map Prod.fst ∧
  Chain s.heap ns ∧ ns.length ≤ s.heap.length

/-- The links of the chain that starts at `head` are mutually consistent:
every node `m` reached from `head` that has a successor is the `prev` of that
successor. -/
def LinksConsistent (heap : List (Option _Node)) (head : Option Nat) : Prop :=
  ∀ (k a b : Nat) (nd : _Node), nth heap k head = some (some a) →
    rd heap (some a) = some nd → nd.next = some b →
    ∃ nb, rd heap (some b) = some nb ∧ nb.prev = some a

/-- The outcome of `LLset(h, i, x)` on a list holding `es`, as the
specification states it; `size` and `get` are `LLsize(h)` and the element
returned by `LLget(h, ·)` afterwards (`none` if that call has no result). -/
def InsertedAtLL (es : List Ptr) (i : Nat) (x : Ptr) (size : Int)
    (get : Int → Option Ptr) : Prop :=
  size = (es.length : Int) + 1 ∧
  (∀ k : Nat, k < i → get k = es[k]?) ∧
  get i = some x ∧
  (∀ k : Nat, i ≤ k → k < es.length → get (k + 1) = es[k]?)

/-- Repeated calls of a linked-list iterator step `f`: the returned elements
in call order and the final iterator, if every call returns. -/
def LLsteps (f : _Iterator → Option (Ptr × _Iterator)) :
    Nat → _Iterator → Option (List Ptr × _Iterator)
  | 0, it => some ([], it)
  | n + 1, it =>
    match f it with
    | none => none
    | some r =>
      match LLsteps f n r.2 with
      | none => none
      | some rs => some (r.1 :: rs.1, rs.2)

/-- The scenario `n` times `next` then `n` times `prev` from iterator `it0`:
the returned elements in call order and the final iterator. -/
def LLnextsThenPrevs (s : LLState) (it0 : _Iterator) (n : Nat) :
    Option (List Ptr × _Iterator) :=
  match LLsteps (LLitnext s) n it0 with
  | none => none
  | some r =>
    match LLsteps (LLitprev s) n r.2 with
    | none => none
    | some q => some (r.1 ++ q.1, q.2)

/-- A mutating call on one container of the array kinds. -/
inductive AOp where
  | add (e : Ptr)
  | set (i : Int) (e : Ptr)
  | remove (i : Int)
deriving DecidableEq, Repr

/-- The state after one call on array `h`. -/
def Aapply (g : Garbage) (h : Int) (s : AState) : AOp → AState
  | AOp.add e => (Aadd g s h e).2
  | AOp.set i e => (Aset g s h i e).2
  | AOp.remove i => (Aremove s h i).2

/-- The state after one call on array-list `h`. -/
def ALapply (g : Garbage) (h : Int) (s : AState) : AOp → AState
  | AOp.add e => (ALadd g s h e).2
  | AOp.set i e => (ALset g s h i e).2
  | AOp.remove i => (ALremove s h i).2

/-- The state after a sequence of calls on array `h`. -/
def Arun (g : Garbage) (h : Int) : AState → List AOp → AState
  | s, [] => s
  | s, op :: r => Arun g h (Aapply g h s op) r

/-- The state after a sequence of calls on array-list `h`. -/
def ALrun (g : Garbage) (h : Int) : AState → List AOp → AState
  | s, [] => s
  | s, op :: r => ALrun g h (ALapply g h s op) r

/-- The index of a call is in range for a container of `size` elements:
`0 ≤ i ≤ size` for `Set`, `0 ≤ i < size` for `Remove`. -/
def AOp.inRange (size : Int) : AOp → Prop
  | AOp.add _ => True
  | AOp.set i _ => 0 ≤ i ∧ i ≤ size
  | AOp.remove i => 0 ≤ i ∧ i < size

/-- Every call of the sequence has its index in range of `Asize(h)` at the
time of the call. -/
def AopsInRange (g : Garbage) (h : Int) : AState → List AOp → Prop
  | _, [] => True
  | s, op :: r => op.inRange (Asize s h).1 ∧ AopsInRange g h (Aapply g h s op) r

/-- Every call of the sequence has its index in range of `ALsize(h)` at the
time of the call. -/
def ALopsInRange (g : Garbage) (h : Int) : AState → List AOp → Prop
  | _, [] => True
  | s, op :: r => op.inRange (ALsize s h).1 ∧ ALopsInRange g h (ALapply g h s op) r

/-- Number of `Add` calls in a sequence. -/
def numAdd : List AOp → Nat
  | [] => 0
  | AOp.add _ :: r => numAdd r + 1
  | _ :: r => numAdd r

/-- Number of `Set` calls in a sequence. -/
def numSet : List AOp → Nat
  | [] => 0
  | AOp.set _ _ :: r => numSet r + 1
  | _ :: r => numSet r

/-- Number of `Remove` calls in a sequence. -/
def numRemove : List AOp → Nat
  | [] => 0
  | AOp.remove _ :: r => numRemove r + 1
  | _ :: r => numRemove r

/-- The state after `h0 = ALnew(c); h1 = ALnew(c); ALadd(h1, x); ALdispose(h0)`
from program start. -/
def ALdisposeFirst (g : Garbage) (c : Int) (x : Ptr) : AState :=
  ALdispose
    (ALadd g (ALnew g (ALnew g (Ainit g) c).2 c).2 (ALnew g (ALnew g (Ainit g) c).2 c).1 x).2
    (ALnew g (Ainit g) c).1

/-- The state after `h0 = ALnew(c); h1 = ALnew(c); h2 = ALnew(c)` from program
start. -/
def ALthree (g : Garbage) (c : Int) : AState :=
  (ALnew g (ALnew g (ALnew g (Ainit g) c).2 c).2 c).2

/-- The list `[97, 98]` on handle 0, built by `LLnew` and two `LLadd` from
program start on a slot table whose heads read as `NULL`; used to instantiate
the theorems. -/
def twoElems : LLState :=
  (LLadds (LLnew junk0 (LLinit junk0)).2 0 [some 97, some 98]).getD (LLinit junk0)

/-- A slot table whose `head` fields hold the non-null pointer `a` and whose
other fields are arbitrary: one of the contents a table handed out by `malloc`
can have. -/
def junkHead (a : Nat) : Int → _LinkedList :=
  fun _ => { used_buckets := 5, head := some a, tail := none }

theorem slotHolds_fresh (g : Garbage) (c : Int) (hc : 1 ≤ c) :
    SlotHolds { total_buckets := c, used_buckets := 0, buckets := malloc g c } [] := by
  constructor <;> simp [malloc] <;> omega

/-- One `Aadd` step on a slot: write, increment, `check`. -/
theorem slotHolds_add (g : Garbage) (a : _Array) (es : List Ptr) (e : Ptr)
    (H : SlotHolds a es) :
    SlotHolds (check g { a with buckets := a.buckets.write a.used_buckets e,
                                used_buckets := a.used_buckets + 1 }) (es ++ [e]) := by
  obtain ⟨hu, ht, hl, hr, hm⟩ := H
  have hmem : ∀ k : Nat, k < (es ++ [e]).length →
      (es ++ [e])[k]? = some ((a.buckets.write a.used_buckets e).mem k) := by
    intro k hk
    simp only [List.length_append, List.length_singleton] at hk
    by_cases hlt : k < es.length
    · have hne : (k : Int) ≠ a.used_buckets := by omega
      simp [List.getElem?_append_left hlt, hm k hlt, Buffer.write, hne]
    · have hke : k = es.length := by omega
      subst hke
      simp [Buffer.write, hu]
  unfold check
  by_cases hg : 3 * a.total_buckets < 4 * (a.used_buckets + 1)
  · simp only [hg, if_true]
    constructor
    · simp [hu]
    · simp [EXPRATE]; omega
    · simp [EXPRATE]; omega
    · simp [EXPRATE, realloc]; omega
    · intro k hk
      rw [hmem k hk]
      simp only [List.length_append, List.length_singleton] at hk
      have h1 : (0 : Int) ≤ k := by omega
      have h2 : (k : Int) < (a.buckets.write a.used_buckets e).cells := by
        show (k : Int) < a.buckets.cells
        omega
      have h3 : (k : Int) < (a.used_buckets + 1) * EXPRATE := by simp [EXPRATE]; omega
      simp [realloc, h2, h3]
  · simp only [hg, if_false]
    constructor
    · simp [hu]
    · simpa using ht
    · simp; omega
    · simpa [Buffer.write] using hr
    · exact hmem

theorem getfreeLoop_bounds (c : _Controller) (n : Nat) (h : Int)
    (hh : h ≤ c.used_buckets) :
    h ≤ getfreeLoop c n h ∧ getfreeLoop c n h ≤ c.used_buckets := by
  induction n generalizing h with
  | zero => simp [getfreeLoop, hh]
  | succ n ih =>
    unfold getfreeLoop
    split
    · rename_i hc
      have := ih (h + 1) (by omega)
      omega
    · simp [hh]

theorem growTable_used (g : Garbage) (c : _Controller) :
    (growTable g c).used_buckets = c.used_buckets := by
  unfold growTable
  by_cases h1 : c.null <;> simp [h1] <;> split <;> simp

theorem AHolds_new (g : Garbage) (s : AState) (z : Int)
    (hs : 0 ≤ s.controller.used_buckets) :
    AHolds (Anew g s z).2 (Anew g s z).1 [] := by
  have hb := getfreeLoop_bounds (growTable g s.controller)
    (growTable g s.controller).used_buckets.toNat 0 (by rw [growTable_used]; exact hs)
  refine ⟨?_, ?_⟩
  · simp only [Anew, getfree]
    omega
  · simp only [Anew, _Controller.store, if_true]
    exact slotHolds_fresh g INITCAPACITY (by decide)

theorem AHolds_add (g : Garbage) (s : AState) (h : Int) (es : List Ptr) (e : Ptr)
    (H : AHolds s h es) : AHolds (Aadd g s h e).2 h (es ++ [e]) := by
  obtain ⟨hv, hslot⟩ := H
  refine ⟨?_, ?_⟩
  · simp [Aadd, hv, _Controller.store]
  · simp only [Aadd, hv, if_true, _Controller.store]
    exact slotHolds_add g _ es e hslot

theorem AHolds_adds (g : Garbage) (h : Int) (es : List Ptr) :
    ∀ (s : AState) (es0 : List Ptr), AHolds s h es0 → AHolds (Aadds g s h es) h (es0 ++ es) := by
  induction es with
  | nil => intro s es0 H; simpa [Aadds] using H
  | cons e es ih =>
    intro s es0 H
    have := ih (Aadd g s h e).2 (es0 ++ [e]) (AHolds_add g s h es0 e H)
    simpa [Aadds] using this

theorem AHolds_size (s : AState) (h : Int) (es : List Ptr) (H : AHolds s h es) :
    (Asize s h).1 = es.length := by
  simp [Asize, H.1, H.2.used]

theorem AHolds_get (s : AState) (h : Int) (es : List Ptr) (H : AHolds s h es)
    (k : Nat) (hk : k < es.length) : (Aget s h k).1 = es[k] := by
  have hm := H.2.mem k hk
  have h1 := H.2.load
  have h2 := H.2.used
  have hle : (k : Int) ≤ (s.controller.buckets h).total_buckets := by omega
  rw [List.getElem?_eq_getElem hk] at hm
  simp [Aget, H.1, hle]
  exact (Option.some.inj hm).symm

theorem ALadd_eq_Aadd : ALadd = Aadd := rfl

theorem ALget_eq_Aget : ALget = Aget := rfl

theorem ALsize_eq_Asize : ALsize = Asize := rfl

theorem ALremove_eq_Aremove : ALremove = Aremove := rfl

theorem ALadds_eq_Aadds : ALadds = Aadds := rfl

theorem AHolds_ALnew (g : Garbage) (s : AState) (c : Int)
    (hs : 0 ≤ s.controller.used_buckets) (hc : 1 ≤ c) :
    AHolds (ALnew g s c).2 (ALnew g s c).1 [] := by
  have hb := getfreeLoop_bounds (growTable g s.controller)
    (growTable g s.controller).used_buckets.toNat 0 (by rw [growTable_used]; exact hs)
  refine ⟨?_, ?_⟩
  · simp only [ALnew, getfreearray]
    omega
  · simp only [ALnew, _Controller.store, if_true]
    exact slotHolds_fresh g c hc

/-- Array-list kind with initial capacity at least 1: after any sequence of
`ALadd` calls the container stores the added elements in order. -/
theorem ALadds_holds (g : Garbage) (s : AState) (c : Int) (es : List Ptr)
    (hs : 0 ≤ s.controller.used_buckets) (hc : 1 ≤ c) :
    AHolds (ALadds g (ALnew g s c).2 (ALnew g s c).1 es) (ALnew g s c).1 es := by
  have H := AHolds_adds g (ALnew g s c).1 es (ALnew g s c).2 [] (AHolds_ALnew g s c hs hc)
  simpa [ALadds_eq_Aadds] using H

/-- C2 at initial capacity 0. `ALnew(0)`, `ALadd(h, e0)`, `ALadd(h, e1)`: the
recorded capacity stays `0 * 2 = 0`, so `ALget(h, ALsize(h) - 1)` fails its
capacity test and returns `NULL` whatever `e1` is. -/
theorem C2_capacity_zero_get_null (g : Garbage) (e0 e1 : Ptr) :
    (ALsize (ALadds g (ALnew g (Ainit g) 0).2 (ALnew g (Ainit g) 0).1 [e0, e1])
        (ALnew g (Ainit g) 0).1).1 = 2 ∧
    (ALget (ALadds g (ALnew g (Ainit g) 0).2 (ALnew g (Ainit g) 0).1 [e0, e1])
        (ALnew g (Ainit g) 0).1
        ((ALsize (ALadds g (ALnew g (Ainit g) 0).2 (ALnew g (Ainit g) 0).1 [e0, e1])
          (ALnew g (Ainit g) 0).1).1 - 1)).1 = none := by
  simp [ALsize, ALget, ALadds, ALadd, ALnew, Ainit, growTable, getfreearray, getfreeLoop,
    check, _Controller.store, INITCAPACITY, EXPRATE]

theorem shiftRight_mem (n : Nat) : ∀ (j : Int) (next : Ptr) (b : Buffer) (k : Int),
    (shiftRight n j next b).mem k =
      if j ≤ k ∧ k < j + n then (if k = j then next else b.mem (k - 1)) else b.mem k := by
  induction n with
  | zero =>
    intro j next b k
    have : ¬ (j ≤ k ∧ k < j + ((0 : Nat) : Int)) := by omega
    simp only [shiftRight, this, if_false]
  | succ n ih =>
    intro j next b k
    simp only [shiftRight, ih, Buffer.write, Nat.cast_add, Nat.cast_one]
    split_ifs <;> first | rfl | (exfalso; omega) | (congr 1; omega)

theorem shiftRight_cells (n : Nat) : ∀ (j : Int) (next : Ptr) (b : Buffer),
    (shiftRight n j next b).cells = b.cells := by
  induction n with
  | zero => intro j next b; rfl
  | succ n ih => intro j next b; simp [shiftRight, ih, Buffer.write]

theorem shiftLeft_mem (n : Nat) : ∀ (j : Int) (b : Buffer) (k : Int),
    (shiftLeft n j b).mem k =
      if j - 1 ≤ k ∧ k < j - 1 + n then b.mem (k + 1) else b.mem k := by
  induction n with
  | zero =>
    intro j b k
    have : ¬ (j - 1 ≤ k ∧ k < j - 1 + ((0 : Nat) : Int)) := by omega
    simp only [shiftLeft, this, if_false]
  | succ n ih =>
    intro j b k
    simp only [shiftLeft, ih, Buffer.write, Nat.cast_add, Nat.cast_one]
    split_ifs <;> first | rfl | (exfalso; omega) | (congr 1; omega)

theorem shiftLeft_cells (n : Nat) : ∀ (j : Int) (b : Buffer),
    (shiftLeft n j b).cells = b.cells := by
  induction n with
  | zero => intro j b; rfl
  | succ n ih => intro j b; simp [shiftLeft, ih, Buffer.write]

/-! ## Set and Remove on the array kinds -/

theorem getElem?_insert_lt {α : Type} (es : List α) (i k : Nat) (x : α) (hk : k < i)
    (hi : i ≤ es.length) : (es.take i ++ x :: es.drop i)[k]? = es[k]? := by
  simp [List.getElem?_append, List.length_take, hk, Nat.lt_of_lt_of_le hk hi, List.getElem?_take]

theorem getElem?_insert_eq {α : Type} (es : List α) (i : Nat) (x : α) (hi : i ≤ es.length) :
    (es.take i ++ x :: es.drop i)[i]? = some x := by
  have h2 : min i es.length = i := by omega
  rw [List.getElem?_append_right (by simp)]
  simp [h2]

theorem getElem?_insert_gt {α : Type} (es : List α) (i k : Nat) (x : α) (hk : i ≤ k)
    (hi : i ≤ es.length) : (es.take i ++ x :: es.drop i)[k + 1]? = es[k]? := by
  have h2 : min i es.length = i := by omega
  rw [List.getElem?_append_right (by simp; omega)]
  have : k + 1 - (List.take i es).length = (k - i) + 1 := by simp [h2]; omega
  rw [this]; simp
  congr 1; omega

theorem length_insert {α : Type} (es : List α) (i : Nat) (x : α) (hi : i ≤ es.length) :
    (es.take i ++ x :: es.drop i).length = es.length + 1 := by
  simp; omega

/-- The effect of `check` on a slot whose `used_buckets` has just been
incremented. -/
theorem slotHolds_check (g : Garbage) (a : _Array) (es : List Ptr)
    (hu : a.used_buckets = es.length) (ht : 1 ≤ a.total_buckets)
    (hl : 4 * a.used_buckets ≤ 3 * a.total_buckets + 4)
    (hr : 3 * a.total_buckets < 4 * a.buckets.cells)
    (hm : ∀ k : Nat, k < es.length → es[k]? = some (a.buckets.mem k)) :
    SlotHolds (check g a) es := by
  unfold check
  by_cases hg : 3 * a.total_buckets < 4 * a.used_buckets
  · simp only [hg, if_true]
    constructor
    · simp [hu]
    · simp [EXPRATE]; omega
    · simp [EXPRATE]; omega
    · simp [EXPRATE, realloc]; omega
    · intro k hk
      rw [hm k hk]
      have h2 : (k : Int) < a.buckets.cells := by omega
      have h3 : (k : Int) < a.used_buckets * EXPRATE := by simp [EXPRATE]; omega
      simp [realloc, h2, h3]
  · simp only [hg, if_false]
    exact ⟨hu, ht, by omega, hr, hm⟩

theorem slotHolds_set (g : Garbage) (a : _Array) (es : List Ptr) (i : Nat) (x : Ptr)
    (H : SlotHolds a es) (hi : i ≤ es.length) :
    SlotHolds (check g { a with
        buckets := shiftRight (a.total_buckets - i).toNat (i + 1) (a.buckets.mem i)
          (a.buckets.write i x),
        used_buckets := a.used_buckets + 1 }) (es.take i ++ x :: es.drop i) := by
  obtain ⟨hu, ht, hl, hr, hm⟩ := H
  apply slotHolds_check
  · simp [hu]; omega
  · exact ht
  · show 4 * (a.used_buckets + 1) ≤ 3 * a.total_buckets + 4
    omega
  · simpa [shiftRight_cells, Buffer.write] using hr
  · intro k hk
    rw [length_insert es i x hi] at hk
    simp only [shiftRight_mem, Buffer.write]
    rcases Nat.lt_trichotomy k i with hlt | heq | hgt
    · rw [getElem?_insert_lt es i k x hlt hi, hm k (by omega)]
      congr 1
      split_ifs <;> first | rfl | (exfalso; omega)
    · subst heq
      rw [getElem?_insert_eq es k x hi]
      congr 1
      split_ifs <;> first | rfl | (exfalso; omega)
    · obtain ⟨m, rfl⟩ : ∃ m, k = m + 1 := ⟨k - 1, by omega⟩
      rw [getElem?_insert_gt es i m x (by omega) hi, hm m (by omega)]
      congr 1
      push_cast
      split_ifs <;> first | rfl | (exfalso; omega) | (congr 1; omega)

theorem slotHolds_remove (a : _Array) (es : List Ptr) (i : Nat)
    (H : SlotHolds a es) (hi : i < es.length) :
    SlotHolds { a with
        buckets := shiftLeft (a.total_buckets - i).toNat (i + 1) a.buckets,
        used_buckets := a.used_buckets - 1 } (es.eraseIdx i) := by
  obtain ⟨hu, ht, hl, hr, hm⟩ := H
  have hlen : (es.eraseIdx i).length = es.length - 1 := by
    simp [List.length_eraseIdx, hi]
  constructor
  · simp [hu, hlen]; omega
  · exact ht
  · show 4 * (a.used_buckets - 1) ≤ 3 * a.total_buckets
    omega
  · simpa [shiftLeft_cells] using hr
  · intro k hk
    rw [hlen] at hk
    simp only [shiftLeft_mem, List.getElem?_eraseIdx]
    by_cases hlt : k < i
    · simp only [hlt, if_true]
      rw [hm k (by omega)]
      congr 1
      split_ifs <;> first | rfl | (exfalso; omega)
    · simp only [hlt, if_false]
      rw [hm (k + 1) (by omega)]
      congr 1
      push_cast
      split_ifs <;> first | rfl | (exfalso; omega)

theorem AHolds_get? (s : AState) (h : Int) (es : List Ptr) (H : AHolds s h es)
    (k : Nat) (hk : k < es.length) : es[k]? = some (Aget s h k).1 := by
  rw [AHolds_get s h es H k hk, List.getElem?_eq_getElem hk]

theorem AHolds_build (g : Garbage) (s : AState) (z : Int) (es : List Ptr)
    (hs : 0 ≤ s.controller.used_buckets) :
    AHolds (Abuild g s z es).2 (Abuild g s z es).1 es := by
  have H := AHolds_adds g (Anew g s z).1 es (Anew g s z).2 [] (AHolds_new g s z hs)
  simpa [Abuild] using H

theorem AHolds_ALbuild (g : Garbage) (s : AState) (c : Int) (es : List Ptr)
    (hs : 0 ≤ s.controller.used_buckets) (hc : 1 ≤ c) :
    AHolds (ALbuild g s c es).2 (ALbuild g s c es).1 es :=
  ALadds_holds g s c es hs hc

theorem AHolds_remove (s : AState) (h : Int) (es : List Ptr) (i : Nat)
    (H : AHolds s h es) (hi : i < es.length) :
    es[i]? = some (Aremove s h i).1 ∧ AHolds (Aremove s h i).2 h (es.eraseIdx i) := by
  obtain ⟨hv, hslot⟩ := H
  have h1 := hslot.load
  have h2 := hslot.used
  have hg : h ≤ s.controller.used_buckets ∧ (i : Int) ≤ (s.controller.buckets h).total_buckets :=
    ⟨hv, by omega⟩
  refine ⟨?_, ?_, ?_⟩
  · simp only [Aremove, hg, and_self, if_true]
    exact hslot.mem i hi
  · simp [Aremove, hg, hv, _Controller.store]
  · simp only [Aremove, hg, and_self, if_true, _Controller.store]
    exact slotHolds_remove _ es i hslot hi

theorem AHolds_set (g : Garbage) (s : AState) (h : Int) (es : List Ptr) (i : Nat) (x : Ptr)
    (H : AHolds s h es) (hi : i ≤ es.length) :
    (Aset g s h i x).1 = x ∧ AHolds (Aset g s h i x).2 h (es.take i ++ x :: es.drop i) := by
  obtain ⟨hv, hslot⟩ := H
  have h1 := hslot.load
  have h2 := hslot.used
  have hg : h ≤ s.controller.used_buckets ∧ (i : Int) ≤ (s.controller.buckets h).total_buckets :=
    ⟨hv, by omega⟩
  refine ⟨?_, ?_, ?_⟩
  · simp only [Aset]; split <;> rfl
  · simp [Aset, hg, hv, _Controller.store]
  · simp only [Aset, hg, and_self, if_true, _Controller.store]
    exact slotHolds_set g _ es i x hslot hi

theorem AHolds_ALset (g : Garbage) (s : AState) (h : Int) (es : List Ptr) (i : Nat) (x : Ptr)
    (H : AHolds s h es) (hi : i ≤ es.length) :
    (ALset g s h i x).1 = x ∧ AHolds (ALset g s h i x).2 h (es.take i ++ x :: es.drop i) := by
  obtain ⟨hv, hslot⟩ := H
  have h2 := hslot.used
  have hg : h ≤ s.controller.used_buckets ∧ (i : Int) ≤ (s.controller.buckets h).used_buckets :=
    ⟨hv, by omega⟩
  refine ⟨?_, ?_, ?_⟩
  · simp only [ALset]; split <;> rfl
  · simp [ALset, hg, hv, _Controller.store]
  · simp only [ALset, hg, and_self, if_true, _Controller.store]
    exact slotHolds_set g _ es i x hslot hi

/-- From `AHolds` before and after a removal to the outcome stated by the
specification. -/
theorem removedAt_of_holds (t : AState) (h : Int) (es : List Ptr) (i : Nat) (ret : Ptr)
    (hi : i < es.length) (hret : es[i]? = some ret) (H : AHolds t h (es.eraseIdx i)) :
    RemovedAt es i ret (Asize t h).1 (fun k => (Aget t h k).1) := by
  have hlen : (es.eraseIdx i).length = es.length - 1 := by
    simp [List.length_eraseIdx, hi]
  refine ⟨hret, ?_, ?_, ?_⟩
  · rw [AHolds_size t h _ H, hlen]; omega
  · intro k hk
    have := AHolds_get? t h _ H k (by omega)
    simpa [List.getElem?_eraseIdx, hk] using this
  · intro k hk1 hk2
    have := AHolds_get? t h _ H k (by omega)
    have hnot : ¬ k < i := by omega
    simpa [List.getElem?_eraseIdx, hnot] using this

/-- From `AHolds` after an insertion to the outcome stated by the
specification. -/
theorem insertedAt_of_holds (t : AState) (h : Int) (es : List Ptr) (i : Nat) (x ret : Ptr)
    (hi : i ≤ es.length) (hret : ret = x) (H : AHolds t h (es.take i ++ x :: es.drop i)) :
    InsertedAt es i x ret (Asize t h).1 (fun k => (Aget t h k).1) := by
  have hlen := length_insert es i x hi
  refine ⟨hret, ?_, ?_, ?_, ?_⟩
  · rw [AHolds_size t h _ H, hlen]; push_cast; rfl
  · intro k hk
    have := AHolds_get? t h _ H k (by omega)
    rw [getElem?_insert_lt es i k x hk hi] at this
    exact this
  · have := AHolds_get? t h _ H i (by omega)
    rw [getElem?_insert_eq es i x hi] at this
    exact (Option.some.inj this).symm
  · intro k hk1 hk2
    have := AHolds_get? t h _ H (k + 1) (by omega)
    rw [getElem?_insert_gt es i k x hk1 hi] at this
    simpa using this

/-- The values `Remove` computes, for a capacity of at least 1: on a container
built by `Add` of `es` on a fresh container, `Remove(h, i)` with `i < n` returns
`es[i]`, `Size` becomes `n - 1`, `Get(h, k)` is `es[k]` for `k < i` and
`es[k+1]` for `i ≤ k < n - 1`. These are the values of a run in which the
cells past the block behave as ordinary memory: every such call sets
`overrun`. -/
theorem remove_shifts_left (g : Garbage) (s t : AState) (z c : Int) (es : List Ptr) (i : Nat)
    (hs : 0 ≤ s.controller.used_buckets) (ht : 0 ≤ t.controller.used_buckets) (hc : 1 ≤ c)
    (hi : i < es.length) :
    RemovedAt es i (Aremove (Abuild g s z es).2 (Abuild g s z es).1 i).1
      (Asize (Aremove (Abuild g s z es).2 (Abuild g s z es).1 i).2 (Abuild g s z es).1).1
      (fun k => (Aget (Aremove (Abuild g s z es).2 (Abuild g s z es).1 i).2
        (Abuild g s z es).1 k).1) ∧
    RemovedAt es i (ALremove (ALbuild g t c es).2 (ALbuild g t c es).1 i).1
      (ALsize (ALremove (ALbuild g t c es).2 (ALbuild g t c es).1 i).2 (ALbuild g t c es).1).1
      (fun k => (ALget (ALremove (ALbuild g t c es).2 (ALbuild g t c es).1 i).2
        (ALbuild g t c es).1 k).1) := by
  have HA := AHolds_remove _ _ es i (AHolds_build g s z es hs) hi
  have HL := AHolds_remove _ _ es i (AHolds_ALbuild g t c es ht hc) hi
  exact ⟨removedAt_of_holds _ _ es i _ hi HA.1 HA.2,
    removedAt_of_holds _ _ es i _ hi HL.1 HL.2⟩

/-- The values `Set` computes, for a capacity of at least 1: on a container
built by `Add` of `es` on a fresh container and for `i ≤ n`, `Set(h, i, x)`
returns `x`, `Size` becomes `n + 1`, `Get(h, k)` is `es[k]` for `k < i`,
`Get(h, i)` is `x` and `Get(h, k+1)` is `es[k]` for `i ≤ k < n`. These are the
values of a run in which the cells past the block behave as ordinary memory:
every such call sets `overrun`. -/
theorem set_inserts (g : Garbage) (s t : AState) (z c : Int) (es : List Ptr) (i : Nat)
    (x : Ptr) (hs : 0 ≤ s.controller.used_buckets) (ht : 0 ≤ t.controller.used_buckets)
    (hc : 1 ≤ c) (hi : i ≤ es.length) :
    InsertedAt es i x (Aset g (Abuild g s z es).2 (Abuild g s z es).1 i x).1
      (Asize (Aset g (Abuild g s z es).2 (Abuild g s z es).1 i x).2 (Abuild g s z es).1).1
      (fun k => (Aget (Aset g (Abuild g s z es).2 (Abuild g s z es).1 i x).2
        (Abuild g s z es).1 k).1) ∧
    InsertedAt es i x (ALset g (ALbuild g t c es).2 (ALbuild g t c es).1 i x).1
      (ALsize (ALset g (ALbuild g t c es).2 (ALbuild g t c es).1 i x).2 (ALbuild g t c es).1).1
      (fun k => (ALget (ALset g (ALbuild g t c es).2 (ALbuild g t c es).1 i x).2
        (ALbuild g t c es).1 k).1) := by
  have HA := AHolds_set g _ _ es i x (AHolds_build g s z es hs) hi
  have HL := AHolds_ALset g _ _ es i x (AHolds_ALbuild g t c es ht hc) hi
  exact ⟨insertedAt_of_holds _ _ es i x _ hi HA.1 HA.2,
    insertedAt_of_holds _ _ es i x _ hi HL.1 HL.2⟩

/-! ## Iterators of the array kinds -/

theorem ALupdateit_eq : ALupdateit = Aupdateit := rfl

theorem ALitnext_eq : ALitnext = Aitnext := rfl

theorem ALitprev_eq : ALitprev = Aitprev := rfl

theorem chain_lt (heap : List (Option _Node)) (ns : List (Nat × Ptr)) (H : Chain heap ns)
    (k a : Nat) (x : Ptr) (hk : ns[k]? = some (a, x)) : a < heap.length := by
  have := H.2 k a x hk
  by_contra hge
  rw [List.getElem?_eq_none (by omega)] at this
  exact Option.noConfusion this

theorem rd_chain (heap : List (Option _Node)) (ns : List (Nat × Ptr)) (H : Chain heap ns)
    (k a : Nat) (x : Ptr) (hk : ns[k]? = some (a, x)) :
    rd heap (some a) = some { next := (ns[k + 1]?).map Prod.fst,
                              prev := if k = 0 then none else (ns[k - 1]?).map Prod.fst,
                              data := x } := by
  simp [rd, H.2 k a x hk]

theorem getElem?_of_lt {α : Type} (l : List α) (k : Nat) (hk : k < l.length) :
    ∃ v, l[k]? = some v :=
  ⟨l[k], List.getElem?_eq_getElem hk⟩

theorem nth_chain (heap : List (Option _Node)) (ns : List (Nat × Ptr)) (H : Chain heap ns)
    (k : Nat) : ∀ j : Nat, j + k ≤ ns.length →
      nth heap k ((ns[j]?).map Prod.fst) = some ((ns[j + k]?).map Prod.fst) := by
  induction k with
  | zero => intro j _; rfl
  | succ k ih =>
    intro j hj
    obtain ⟨⟨a, x⟩, hv⟩ := getElem?_of_lt ns j (by omega)
    rw [hv]
    simp only [Option.map_some', nth, rd_chain heap ns H j a x hv]
    rw [ih (j + 1) (by omega)]
    have : j + 1 + k = j + (k + 1) := by omega
    rw [this]

theorem lastNode_chain (heap : List (Option _Node)) (ns : List (Nat × Ptr)) (H : Chain heap ns)
    (fuel : Nat) : ∀ (j a : Nat) (x : Ptr), ns[j]? = some (a, x) → ns.length - j ≤ fuel →
      ∃ (al : Nat) (xl : Ptr), ns[ns.length - 1]? = some (al, xl) ∧
        lastNode heap fuel a = some al := by
  induction fuel with
  | zero =>
    intro j a x hv hf
    have : j < ns.length := (List.getElem?_eq_some.1 hv).1
    omega
  | succ fuel ih =>
    intro j a x hv hf
    have hj : j < ns.length := (List.getElem?_eq_some.1 hv).1
    simp only [lastNode, rd_chain heap ns H j a x hv]
    by_cases hlast : j + 1 < ns.length
    · obtain ⟨⟨b, y⟩, hb⟩ := getElem?_of_lt ns (j + 1) hlast
      simp only [hb, Option.map_some']
      exact ih (j + 1) b y hb (by omega)
    · have hn : ns[j + 1]? = none := List.getElem?_eq_none (by omega)
      simp only [hn, Option.map_none']
      have : ns.length - 1 = j := by omega
      exact ⟨a, x, by rw [this]; exact hv, rfl⟩

theorem getElem?_snoc_lt {α : Type} (l : List α) (p : α) (k : Nat) (hk : k < l.length) :
    (l ++ [p])[k]? = l[k]? := List.getElem?_append_left hk

theorem getElem?_snoc_cases {α : Type} (l : List α) (p v : α) (k : Nat)
    (h : (l ++ [p])[k]? = some v) :
    (k < l.length ∧ l[k]? = some v) ∨ (k = l.length ∧ v = p) := by
  rcases Nat.lt_trichotomy k l.length with hlt | heq | hgt
  · left; exact ⟨hlt, by rw [← h, List.getElem?_append_left hlt]⟩
  · right
    subst heq
    rw [List.getElem?_concat_length] at h
    exact ⟨rfl, (Option.some.inj h).symm⟩
  · rw [List.getElem?_eq_none (by simp; omega)] at h
    exact Option.noConfusion h

theorem validhandler_of_lt (s : LLState) (h : Int) (hv : h < s.controller.used_buckets) :
    validhandler s h = (1, s) := by
  simp [validhandler, hv]

/-- The chain after appending a node at the fresh address, the former last
node (if any) pointing to it. -/
theorem chain_snoc (heap : List (Option _Node)) (ns : List (Nat × Ptr)) (H : Chain heap ns)
    (e : Ptr) (al : Nat) (xl : Ptr) (pn : _Node) (hne : ns ≠ [])
    (hl : ns[ns.length - 1]? = some (al, xl)) (hpn : rd heap (some al) = some pn) :
    Chain ((heap.set al (some { pn with next := some heap.length })) ++
        [some { next := none, prev := some al, data := e }])
      (ns ++ [(heap.length, e)]) := by
  have hpos : 0 < ns.length := List.length_pos.2 hne
  have hal : al < heap.length := chain_lt heap ns H _ al xl hl
  have hpn2 := rd_chain heap ns H _ al xl hl
  rw [hpn] at hpn2
  have hpn3 := Option.some.inj hpn2
  refine ⟨?_, ?_⟩
  · intro j k a x y hj hk
    rcases getElem?_snoc_cases ns _ _ j hj with ⟨hj1, hj2⟩ | ⟨hj1, hj2⟩
    · rcases getElem?_snoc_cases ns _ _ k hk with ⟨hk1, hk2⟩ | ⟨hk1, hk2⟩
      · exact H.1 j k a x y hj2 hk2
      · have := chain_lt heap ns H j a x hj2
        have ha : a = heap.length := congrArg Prod.fst hk2
        omega
    · rcases getElem?_snoc_cases ns _ _ k hk with ⟨hk1, hk2⟩ | ⟨hk1, hk2⟩
      · have := chain_lt heap ns H k a y hk2
        have ha : a = heap.length := congrArg Prod.fst hj2
        omega
      · omega
  · intro k a x hk
    rcases getElem?_snoc_cases ns _ _ k hk with ⟨hk1, hk2⟩ | ⟨hk1, hk2⟩
    · have ha := chain_lt heap ns H k a x hk2
      have hold := H.2 k a x hk2
      rw [List.getElem?_append_left (by simpa using ha), List.getElem?_set]
      by_cases heq : al = a
      · subst heq
        have hkl : k = ns.length - 1 := H.1 k _ al x xl hk2 hl
        have hx : x = xl := by
          rw [hkl, hl] at hk2
          exact (congrArg Prod.snd (Option.some.inj hk2)).symm
        have hnext : (ns ++ [(heap.length, e)])[k + 1]? = some (heap.length, e) := by
          have : k + 1 = ns.length := by omega
          rw [this, List.getElem?_concat_length]
        have hprev : (ns ++ [(heap.length, e)])[k - 1]? = ns[k - 1]? :=
          List.getElem?_append_left (by omega)
        simp only [if_true, hal, hnext, hprev, Option.map_some']
        rw [hpn3, hkl, hx]
      · have hkne : k ≠ ns.length - 1 := by
          intro hkk
          rw [hkk, hl] at hk2
          exact heq (congrArg Prod.fst (Option.some.inj hk2))
        have hnext : (ns ++ [(heap.length, e)])[k + 1]? = ns[k + 1]? :=
          List.getElem?_append_left (by omega)
        have hprev : (ns ++ [(heap.length, e)])[k - 1]? = ns[k - 1]? :=
          List.getElem?_append_left (by omega)
        simp only [heq, if_false, hnext, hprev]
        exact hold
    · have hx : x = e := congrArg Prod.snd hk2
      have ha : a = heap.length := congrArg Prod.fst hk2
      subst hx ha hk1
      have h1 : (heap.set al (some { pn with next := some heap.length })).length = heap.length :=
        List.length_set _ _ _
      rw [List.getElem?_append_right (by omega), h1, Nat.sub_self]
      have hnext : (ns ++ [(heap.length, x)])[ns.length + 1]? = none :=
        List.getElem?_eq_none (by simp)
      have hprev : (ns ++ [(heap.length, x)])[ns.length - 1]? = some (al, xl) := by
        rw [List.getElem?_append_left (by omega), hl]
      have hz : ns.length ≠ 0 := by omega
      simp [hnext, hprev, hz]

theorem LLHolds_add (s : LLState) (h : Int) (ns : List (Nat × Ptr)) (e : Ptr)
    (H : LLHolds s h ns) :
    ∃ t, LLadd s h e = some (e, t) ∧ LLHolds t h (ns ++ [(s.heap.length, e)]) := by
  obtain ⟨hv, hu, hh, hc, hlen⟩ := H
  have hval : (validhandler s h).1 ≠ 0 := by simp [validhandler_of_lt s h hv]
  cases ns with
  | nil =>
    simp only [List.getElem?_nil, Option.map_none'] at hh
    simp only [LLadd, hval, ne_eq, not_false_eq_true, if_true, hh]
    refine ⟨_, rfl, ?_, ?_, ?_, ?_, ?_⟩
    · simpa [LL_Controller.store] using hv
    · simp [LL_Controller.store, hu]
    · simp [LL_Controller.store]
    · refine ⟨?_, ?_⟩
      · intro j k a x y hj hk
        have h1 := (List.getElem?_eq_some.1 hj).1
        have h2 := (List.getElem?_eq_some.1 hk).1
        simp at h1 h2
        omega
      · intro k a x hk
        have h1 := (List.getElem?_eq_some.1 hk).1
        simp at h1
        subst h1
        simp at hk
        obtain ⟨rfl, rfl⟩ := hk
        simp
    · simp
  | cons n0 rest =>
    obtain ⟨a0, x0⟩ := n0
    simp only [List.getElem?_cons_zero, Option.map_some'] at hh
    obtain ⟨al, xl, hl, hlast⟩ := lastNode_chain s.heap ((a0, x0) :: rest) hc
      (s.heap.length + 1) 0 a0 x0 (by simp) (by omega)
    have hrd := rd_chain s.heap _ hc _ al xl hl
    simp only [LLadd, hval, ne_eq, not_false_eq_true, if_true, hh, hlast, hrd]
    refine ⟨_, rfl, ?_, ?_, ?_, ?_, ?_⟩
    · simpa [LL_Controller.store] using hv
    · simp [LL_Controller.store, hu]
    · simp [LL_Controller.store, hh]
    · exact chain_snoc s.heap _ hc e al xl _ (by simp) hl hrd
    · simp only [List.length_append, List.length_set, List.length_singleton]
      omega

theorem LLHolds_adds (h : Int) (es : List Ptr) :
    ∀ (s : LLState) (ns : List (Nat × Ptr)), LLHolds s h ns →
      ∃ t ms, LLadds s h es = some t ∧ LLHolds t h ms ∧
        ms.map Prod.snd = ns.map Prod.snd ++ es := by
  induction es with
  | nil =>
    intro s ns H
    exact ⟨s, ns, rfl, H, by simp⟩
  | cons e es ih =>
    intro s ns H
    obtain ⟨t1, h1, H1⟩ := LLHolds_add s h ns e H
    obtain ⟨t, ms, h2, H2, hm⟩ := ih t1 _ H1
    refine ⟨t, ms, ?_, H2, ?_⟩
    · simp only [LLadds, h1]
      exact h2
    · simp [hm]

theorem LLHolds_of_empty (s : LLState) (h : Int) (H : LLempty s h) : LLHolds s h [] := by
  obtain ⟨h1, h2, h3⟩ := H
  refine ⟨h1, by simpa using h2, by simpa using h3, ⟨?_, ?_⟩, by simp⟩
  · intro j k a x y hj
    simp at hj
  · intro k a x hk
    simp at hk

theorem LLHolds_size (s : LLState) (h : Int) (ns : List (Nat × Ptr)) (H : LLHolds s h ns) :
    LLsize s h = ((ns.length : Int), s) := by
  simp [LLsize, validhandler_of_lt s h H.1, H.2.1]

theorem LLHolds_get (s : LLState) (h : Int) (ns : List (Nat × Ptr)) (H : LLHolds s h ns)
    (k a : Nat) (x : Ptr) (hk : ns[k]? = some (a, x)) : LLget s h k = some (x, s) := by
  obtain ⟨hv, hu, hh, hc, hlen⟩ := H
  have hkl : k < ns.length := (List.getElem?_eq_some.1 hk).1
  have hval : (validhandler s h).1 ≠ 0 := by simp [validhandler_of_lt s h hv]
  have hlt : (k : Int) < (s.controller.buckets h).used_buckets := by omega
  have hn := nth_chain s.heap ns hc k 0 (by omega)
  simp only [Nat.zero_add, hk, Option.map_some'] at hn
  rw [← hh] at hn
  simp only [LLget, hval, ne_eq, not_false_eq_true, if_true, hlt, Int.toNat_ofNat, hn,
    rd_chain s.heap ns hc k a x hk]

theorem LLHolds_get_ge (s : LLState) (h : Int) (ns : List (Nat × Ptr)) (H : LLHolds s h ns)
    (k : Int) (hk : (ns.length : Int) ≤ k) : LLget s h k = some (none, s) := by
  have hval : (validhandler s h).1 ≠ 0 := by simp [validhandler_of_lt s h H.1]
  have hlt : ¬ k < (s.controller.buckets h).used_buckets := by rw [H.2.1]; omega
  simp [LLget, hval, hlt]

/-- Linked-list kind, on a slot whose `head` reads as `NULL`: after adding
`e0 … e(n-1)` with `LLadd` to an empty list (valid handle, no element, `NULL`
head), every call returns, `LLsize` is `n`, `LLget k` is `ek` for `k < n` and
`NULL` for every `k ≥ n`. `LLnew` does not establish the `NULL` head. -/
theorem adds_then_get_of_empty (s : LLState) (h : Int) (es : List Ptr)
    (he : LLempty s h) :
    ∃ t, LLadds s h es = some t ∧ (LLsize t h).1 = es.length ∧
      (∀ (k : Nat) (hk : k < es.length), (LLget t h k).map Prod.fst = some es[k]) ∧
      (∀ k : Int, (es.length : Int) ≤ k → (LLget t h k).map Prod.fst = some none) := by
  obtain ⟨t, ms, ht, H, hm⟩ := LLHolds_adds h es s [] (LLHolds_of_empty s h he)
  simp only [List.map_nil, List.nil_append] at hm
  have hlen : ms.length = es.length := by rw [← hm, List.length_map]
  refine ⟨t, ht, ?_, ?_, ?_⟩
  · rw [LLHolds_size t h ms H, hlen]
  · intro k hk
    obtain ⟨⟨a, x⟩, hv⟩ := getElem?_of_lt ms k (by omega)
    rw [LLHolds_get t h ms H k a x hv]
    have : es[k]? = some x := by
      rw [← hm, List.getElem?_map, hv]; rfl
    rw [List.getElem?_eq_getElem hk] at this
    simp [Option.some.inj this]
  · intro k hk
    rw [LLHolds_get_ge t h ms H k (by omega)]
    rfl

/-! ### `LLset` -/

theorem getElem?_insert_cases {α : Type} (l : List α) (i k : Nat) (v w : α)
    (hi : i ≤ l.length) (h : (l.take i ++ v :: l.drop i)[k]? = some w) :
    (k < i ∧ l[k]? = some w) ∨ (k = i ∧ w = v) ∨
    (∃ m, k = m + 1 ∧ i ≤ m ∧ l[m]? = some w) := by
  rcases Nat.lt_trichotomy k i with hlt | heq | hgt
  · left
    rw [getElem?_insert_lt l i k v hlt hi] at h
    exact ⟨hlt, h⟩
  · right; left
    subst heq
    rw [getElem?_insert_eq l k v hi] at h
    exact ⟨rfl, (Option.some.inj h).symm⟩
  · right; right
    obtain ⟨m, rfl⟩ : ∃ m, k = m + 1 := ⟨k - 1, by omega⟩
    rw [getElem?_insert_gt l i m v (by omega) hi] at h
    exact ⟨m, rfl, by omega, h⟩

/-- Inserting a node with a fresh address keeps the addresses distinct. -/
theorem insert_inj (heap : List (Option _Node)) (ns : List (Nat × Ptr)) (H : Chain heap ns)
    (i : Nat) (x : Ptr) (hi : i ≤ ns.length) (j k a : Nat) (y z : Ptr)
    (hj : (ns.take i ++ (heap.length, x) :: ns.drop i)[j]? = some (a, y))
    (hk : (ns.take i ++ (heap.length, x) :: ns.drop i)[k]? = some (a, z)) : j = k := by
  rcases getElem?_insert_cases ns i j _ _ hi hj with ⟨j1, j2⟩ | ⟨j1, j2⟩ | ⟨m, j1, j2, j3⟩ <;>
  rcases getElem?_insert_cases ns i k _ _ hi hk with ⟨k1, k2⟩ | ⟨k1, k2⟩ | ⟨r, k1, k2, k3⟩
  · exact H.1 j k a y z j2 k2
  · have := chain_lt heap ns H j a y j2
    have ha : a = heap.length := congrArg Prod.fst k2
    omega
  · have := H.1 j r a y z j2 k3
    omega
  · have := chain_lt heap ns H k a z k2
    have ha : a = heap.length := congrArg Prod.fst j2
    omega
  · omega
  · have := chain_lt heap ns H r a z k3
    have ha : a = heap.length := congrArg Prod.fst j2
    omega
  · have := H.1 m k a y z j3 k2
    omega
  · have := chain_lt heap ns H m a y j3
    have ha : a = heap.length := congrArg Prod.fst k2
    omega
  · have := H.1 m r a y z j3 k3
    omega

theorem getElem?_set_set_snoc {α : Type} (heap : List α) (p a : Nat) (P A N : α) (b : Nat)
    (hb : b < heap.length) (hp : p < heap.length) (ha : a < heap.length) :
    (((heap.set p P).set a A) ++ [N])[b]? =
      if a = b then some A else if p = b then some P else heap[b]? := by
  rw [List.getElem?_append_left (by simpa using hb), List.getElem?_set, List.getElem?_set]
  simp [hp, ha]

theorem getElem?_set_set_snoc_new {α : Type} (heap : List α) (p a : Nat) (P A N : α) :
    (((heap.set p P).set a A) ++ [N])[heap.length]? = some N := by
  rw [List.getElem?_append_right (by simp)]
  simp

theorem getElem?_set_snoc {α : Type} (heap : List α) (a : Nat) (A N : α) (b : Nat)
    (hb : b < heap.length) (ha : a < heap.length) :
    ((heap.set a A) ++ [N])[b]? = if a = b then some A else heap[b]? := by
  rw [List.getElem?_append_left (by simpa using hb), List.getElem?_set]
  simp [ha]

theorem getElem?_set_snoc_new {α : Type} (heap : List α) (a : Nat) (A N : α) :
    ((heap.set a A) ++ [N])[heap.length]? = some N := by
  rw [List.getElem?_append_right (by simp)]
  simp

theorem chain_insert_mid (heap : List (Option _Node)) (ns : List (Nat × Ptr))
    (H : Chain heap ns) (j p a : Nat) (xp xi x : Ptr)
    (hp : ns[j]? = some (p, xp)) (ha : ns[j + 1]? = some (a, xi)) :
    Chain (((heap.set p
              (some { next := some heap.length,
                      prev := if j = 0 then none else (ns[j - 1]?).map Prod.fst,
                      data := xp })).set a
              (some { next := (ns[j + 2]?).map Prod.fst, prev := some heap.length, data := xi }))
            ++ [some { next := some a, prev := some p, data := x }])
      (ns.take (j + 1) ++ (heap.length, x) :: ns.drop (j + 1)) := by
  have hjl : j + 1 < ns.length := (List.getElem?_eq_some.1 ha).1
  have hi : j + 1 ≤ ns.length := by omega
  have hpl := chain_lt heap ns H j p xp hp
  have hal := chain_lt heap ns H (j + 1) a xi ha
  refine ⟨fun r k b y z hr hk => insert_inj heap ns H (j + 1) x hi r k b y z hr hk, ?_⟩
  intro k b y hk
  rcases getElem?_insert_cases ns (j + 1) k _ _ hi hk with ⟨k1, k2⟩ | ⟨k1, k2⟩ | ⟨m, k1, k2, k3⟩
  · have hbl := chain_lt heap ns H k b y k2
    have hba : a ≠ b := by
      intro hab; subst hab
      have := H.1 k (j + 1) a y xi k2 ha
      omega
    rw [getElem?_set_set_snoc heap p a _ _ _ b hbl hpl hal, if_neg hba]
    have hprev : (ns.take (j + 1) ++ (heap.length, x) :: ns.drop (j + 1))[k - 1]? = ns[k - 1]? :=
      getElem?_insert_lt ns (j + 1) (k - 1) _ (by omega) hi
    by_cases hkj : k = j
    · subst hkj
      rw [hp] at k2
      obtain ⟨rfl, rfl⟩ := Prod.mk.inj (Option.some.inj k2)
      rw [if_pos rfl, getElem?_insert_eq ns (k + 1) _ hi, hprev]
      rfl
    · have hbp : p ≠ b := by
        intro hpb; subst hpb
        exact hkj (H.1 k j p y xp k2 hp)
      rw [if_neg hbp, H.2 k b y k2, getElem?_insert_lt ns (j + 1) (k + 1) _ (by omega) hi, hprev]
  · subst k1
    obtain ⟨rfl, rfl⟩ := Prod.mk.inj k2
    rw [getElem?_set_set_snoc_new]
    have hnext : (ns.take (j + 1) ++ (heap.length, y) :: ns.drop (j + 1))[j + 1 + 1]? =
        ns[j + 1]? := getElem?_insert_gt ns (j + 1) (j + 1) _ (le_refl _) hi
    have hprev : (ns.take (j + 1) ++ (heap.length, y) :: ns.drop (j + 1))[j + 1 - 1]? =
        ns[j]? := getElem?_insert_lt ns (j + 1) j _ (by omega) hi
    rw [hnext, hprev, ha, hp]
    rfl
  · subst k1
    have hbl := chain_lt heap ns H m b y k3
    have hnext : (ns.take (j + 1) ++ (heap.length, x) :: ns.drop (j + 1))[m + 1 + 1]? =
        ns[m + 1]? := getElem?_insert_gt ns (j + 1) (m + 1) _ (by omega) hi
    have hbp : p ≠ b := by
      intro hpb; subst hpb
      have := H.1 m j p y xp k3 hp
      omega
    rw [getElem?_set_set_snoc heap p a _ _ _ b hbl hpl hal, hnext]
    by_cases hmj : m = j + 1
    · subst hmj
      rw [ha] at k3
      obtain ⟨rfl, rfl⟩ := Prod.mk.inj (Option.some.inj k3)
      have hprev : (ns.take (j + 1) ++ (heap.length, x) :: ns.drop (j + 1))[j + 1 + 1 - 1]? =
          some (heap.length, x) := by
        have : j + 1 + 1 - 1 = j + 1 := by omega
        rw [this]
        exact getElem?_insert_eq ns (j + 1) _ hi
      rw [if_pos rfl, hprev]
      rfl
    · have hba : a ≠ b := by
        intro hab; subst hab
        exact hmj (H.1 m (j + 1) a y xi k3 ha)
      have hprev : (ns.take (j + 1) ++ (heap.length, x) :: ns.drop (j + 1))[m + 1 - 1]? =
          ns[m - 1]? := by
        have : m + 1 - 1 = (m - 1) + 1 := by omega
        rw [this]
        exact getElem?_insert_gt ns (j + 1) (m - 1) _ (by omega) hi
      have hm0 : m ≠ 0 := by omega
      rw [if_neg hba, if_neg hbp, H.2 m b y k3, hprev]
      simp [hm0]

theorem chain_insert_head (heap : List (Option _Node)) (ns : List (Nat × Ptr))
    (H : Chain heap ns) (a : Nat) (xi x : Ptr) (ha : ns[0]? = some (a, xi)) :
    Chain ((heap.set a
              (some { next := (ns[1]?).map Prod.fst, prev := some heap.length, data := xi }))
            ++ [some { next := some a, prev := none, data := x }])
      (ns.take 0 ++ (heap.length, x) :: ns.drop 0) := by
  have hi : 0 ≤ ns.length := Nat.zero_le _
  have hal := chain_lt heap ns H 0 a xi ha
  refine ⟨fun r k b y z hr hk => insert_inj heap ns H 0 x hi r k b y z hr hk, ?_⟩
  intro k b y hk
  rcases getElem?_insert_cases ns 0 k _ _ hi hk with ⟨k1, k2⟩ | ⟨k1, k2⟩ | ⟨m, k1, k2, k3⟩
  · omega
  · subst k1
    obtain ⟨rfl, rfl⟩ := Prod.mk.inj k2
    rw [getElem?_set_snoc_new]
    have hnext : (ns.take 0 ++ (heap.length, y) :: ns.drop 0)[0 + 1]? = ns[0]? :=
      getElem?_insert_gt ns 0 0 _ (le_refl _) hi
    rw [hnext, ha]
    rfl
  · subst k1
    have hbl := chain_lt heap ns H m b y k3
    have hnext : (ns.take 0 ++ (heap.length, x) :: ns.drop 0)[m + 1 + 1]? = ns[m + 1]? :=
      getElem?_insert_gt ns 0 (m + 1) _ (by omega) hi
    rw [getElem?_set_snoc heap a _ _ b hbl hal, hnext]
    by_cases hm0 : m = 0
    · subst hm0
      rw [ha] at k3
      obtain ⟨rfl, rfl⟩ := Prod.mk.inj (Option.some.inj k3)
      have hprev : (ns.take 0 ++ (heap.length, x) :: ns.drop 0)[0 + 1 - 1]? =
          some (heap.length, x) := getElem?_insert_eq ns 0 _ hi
      rw [if_pos rfl, hprev]
      rfl
    · have hba : a ≠ b := by
        intro hab; subst hab
        exact hm0 (H.1 m 0 a y xi k3 ha)
      have hprev : (ns.take 0 ++ (heap.length, x) :: ns.drop 0)[m + 1 - 1]? = ns[m - 1]? := by
        have : m + 1 - 1 = (m - 1) + 1 := by omega
        rw [this]
        exact getElem?_insert_gt ns 0 (m - 1) _ (by omega) hi
      rw [if_neg hba, H.2 m b y k3, hprev]
      simp [hm0]

theorem LLHolds_set (s : LLState) (h : Int) (ns : List (Nat × Ptr)) (H : LLHolds s h ns)
    (i : Nat) (x : Ptr) (hi : i < ns.length) :
    ∃ t, LLset s h i x = some (x, t) ∧
      LLHolds t h (ns.take i ++ (s.heap.length, x) :: ns.drop i) ∧
      (i = 0 → (t.controller.buckets h).head = some s.heap.length) := by
  obtain ⟨hv, hu, hh, hc, hlen⟩ := H
  obtain ⟨⟨a, xi⟩, ha⟩ := getElem?_of_lt ns i hi
  have hval : (validhandler s h).1 ≠ 0 := by simp [validhandler_of_lt s h hv]
  have hg : (validhandler s h).1 ≠ 0 ∧ (0 : Int) ≤ (i : Int) ∧
      (i : Int) < (s.controller.buckets h).used_buckets := ⟨hval, by omega, by omega⟩
  have hn := nth_chain s.heap ns hc i 0 (by omega)
  simp only [Nat.zero_add, ha, Option.map_some'] at hn
  rw [← hh] at hn
  have hrd := rd_chain s.heap ns hc i a xi ha
  have hal := chain_lt s.heap ns hc i a xi ha
  have hlen2 : (ns.take i ++ (s.heap.length, x) :: ns.drop i).length = ns.length + 1 :=
    length_insert ns i _ (by omega)
  cases i with
  | zero =>
    have hhead : (s.controller.buckets h).head = some a := by rw [hh, ha]; rfl
    rw [hhead] at hn
    have hrd1 : rd (s.heap) (some a) =
        some { next := (ns[1]?).map Prod.fst, prev := none, data := xi } := by
      simpa using hrd
    have hset : LLset s h ((0 : Nat) : Int) x = some (x,
        { s with
          heap := (s.heap.set a
              (some { next := (ns[1]?).map Prod.fst, prev := some s.heap.length, data := xi }))
            ++ [some { next := some a, prev := none, data := x }],
          controller := s.controller.store h
            { (s.controller.buckets h) with
              head := some s.heap.length,
              used_buckets := (s.controller.buckets h).used_buckets + 1 } }) := by
      simp only [LLset]
      rw [if_pos hg]
      simp only [Int.toNat_ofNat, hn, hrd1, hhead, if_true]
    refine ⟨_, hset, ⟨?_, ?_, ?_, ?_, ?_⟩, ?_⟩
    · simpa [LL_Controller.store] using hv
    · simp only [LL_Controller.store, if_true, hlen2, hu]; push_cast; rfl
    · simp [LL_Controller.store]
    · exact chain_insert_head s.heap ns hc a xi x ha
    · simp only [List.length_append, List.length_set, List.length_singleton, hlen2]
      omega
    · intro _
      simp [LL_Controller.store]
  | succ j =>
    obtain ⟨⟨p, xp⟩, hp⟩ := getElem?_of_lt ns j (by omega)
    have hpl := chain_lt s.heap ns hc j p xp hp
    have hrdp := rd_chain s.heap ns hc j p xp hp
    have hpa : p ≠ a := by
      intro hpa; subst hpa
      have := hc.1 j (j + 1) p xp xi hp ha
      omega
    have hrd1 : rd s.heap (some a) =
        some { next := (ns[j + 2]?).map Prod.fst, prev := some p, data := xi } := by
      rw [hrd]; simp [hp]
    have hrd2 : ∀ P : Option _Node, rd (s.heap.set p P) (some a) =
        some { next := (ns[j + 2]?).map Prod.fst, prev := some p, data := xi } := by
      intro P
      rw [← hrd1]
      simp only [rd, List.getElem?_set_ne hpa]
    have hhead : ¬ (some a = (s.controller.buckets h).head) := by
      intro heq
      obtain ⟨⟨a0, x0⟩, h0⟩ := getElem?_of_lt ns 0 (by omega)
      rw [hh, h0] at heq
      have : a = a0 := Option.some.inj heq
      subst this
      have := hc.1 (j + 1) 0 a xi x0 ha h0
      omega
    have hset : LLset s h ((j + 1 : Nat) : Int) x = some (x,
        { s with
          heap := ((s.heap.set p
              (some { next := some s.heap.length,
                      prev := if j = 0 then none else (ns[j - 1]?).map Prod.fst,
                      data := xp })).set a
              (some { next := (ns[j + 2]?).map Prod.fst, prev := some s.heap.length, data := xi }))
            ++ [some { next := some a, prev := some p, data := x }],
          controller := s.controller.store h
            { (s.controller.buckets h) with
              used_buckets := (s.controller.buckets h).used_buckets + 1 } }) := by
      simp only [LLset]
      rw [if_pos hg]
      simp only [Int.toNat_ofNat, hn, hrd1, hrdp, hrd2, hhead, if_false]
    refine ⟨_, hset, ⟨?_, ?_, ?_, ?_, ?_⟩, ?_⟩
    · simpa [LL_Controller.store] using hv
    · simp only [LL_Controller.store, if_true, hlen2, hu]; push_cast; rfl
    · simp only [LL_Controller.store, if_true, hh]
      rw [getElem?_insert_lt ns (j + 1) 0 _ (by omega) (by omega)]
    · exact chain_insert_mid s.heap ns hc j p a xp xi x hp ha
    · simp only [List.length_append, List.length_set, List.length_singleton, hlen2]
      omega
    · intro h0; omega

theorem nth_add (heap : List (Option _Node)) (j k : Nat) : ∀ p : Option Nat,
    nth heap (j + k) p = (nth heap j p).bind (nth heap k) := by
  induction j with
  | zero => intro p; simp [nth]
  | succ j ih =>
    intro p
    have : j + 1 + k = (j + k) + 1 := by omega
    rw [this]
    simp only [nth]
    cases rd heap p with
    | none => rfl
    | some nd => exact ih nd.next

theorem nth_chain_some (heap : List (Option _Node)) (ns : List (Nat × Ptr)) (H : Chain heap ns)
    (k a : Nat) (hk : nth heap k ((ns[0]?).map Prod.fst) = some (some a)) :
    ∃ x, ns[k]? = some (a, x) := by
  by_cases hle : k ≤ ns.length
  · have := nth_chain heap ns H k 0 (by omega)
    rw [this, Nat.zero_add] at hk
    have h1 := Option.some.inj hk
    cases hv : ns[k]? with
    | none => rw [hv] at h1; exact Option.noConfusion h1
    | some v =>
      rw [hv] at h1
      obtain ⟨b, y⟩ := v
      have : b = a := Option.some.inj h1
      subst this
      exact ⟨y, rfl⟩
  · exfalso
    obtain ⟨m, hm⟩ : ∃ m, k = ns.length + (m + 1) := ⟨k - ns.length - 1, by omega⟩
    rw [hm, nth_add, nth_chain heap ns H ns.length 0 (by omega), Nat.zero_add,
      List.getElem?_eq_none (le_refl _)] at hk
    simp [nth, rd] at hk

theorem linksConsistent_of_holds (s : LLState) (h : Int) (ns : List (Nat × Ptr))
    (H : LLHolds s h ns) : LinksConsistent s.heap (s.controller.buckets h).head := by
  obtain ⟨hv, hu, hh, hc, hlen⟩ := H
  intro k a b nd hk hrd hnext
  rw [hh] at hk
  obtain ⟨x, hx⟩ := nth_chain_some s.heap ns hc k a hk
  rw [rd_chain s.heap ns hc k a x hx] at hrd
  have hnd := Option.some.inj hrd
  rw [← hnd] at hnext
  simp only at hnext
  cases hv1 : ns[k + 1]? with
  | none => rw [hv1] at hnext; exact Option.noConfusion hnext
  | some v =>
    rw [hv1] at hnext
    obtain ⟨b1, y⟩ := v
    have : b1 = b := Option.some.inj hnext
    subst this
    refine ⟨_, rd_chain s.heap ns hc (k + 1) b1 y hv1, ?_⟩
    simp [hx]

theorem map_snd_getElem? (ms : List (Nat × Ptr)) (es : List Ptr) (hm : ms.map Prod.snd = es)
    (k a : Nat) (y : Ptr) (hk : ms[k]? = some (a, y)) : es[k]? = some y := by
  rw [← hm, List.getElem?_map, hk]; rfl

/-- C7. Linked-list kind: `LLset` inserts before the node at `i`. On a list
built by `LLadd` of `es` on an empty list and for `i < n`, `LLset(h, i, x)`
returns `x`; afterwards `LLsize` is `n + 1`, `LLget k` is `es[k]` for `k < i`,
`LLget i` is `x`, `LLget (k+1)` is `es[k]` for `i ≤ k < n`, the head is the
newly allocated node when `i = 0`, and every node of the chain with a
successor is the `prev` of that successor. -/
theorem C7_linkedlist_set_inserts (s : LLState) (h : Int) (es : List Ptr) (i : Nat) (x : Ptr)
    (he : LLempty s h) (hi : i < es.length) :
    ∃ t r, LLadds s h es = some t ∧ LLset t h i x = some (x, r) ∧
      InsertedAtLL es i x (LLsize r h).1 (fun k => (LLget r h k).map Prod.fst) ∧
      (i = 0 → (r.controller.buckets h).head = some t.heap.length ∧
        (rd r.heap (some t.heap.length)).map _Node.data = some x) ∧
      LinksConsistent r.heap (r.controller.buckets h).head := by
  obtain ⟨t, ms, ht, H, hm⟩ := LLHolds_adds h es s [] (LLHolds_of_empty s h he)
  simp only [List.map_nil, List.nil_append] at hm
  have hlen : ms.length = es.length := by rw [← hm, List.length_map]
  obtain ⟨r, hr, HR, hhead⟩ := LLHolds_set t h ms H i x (by omega)
  have hil : i ≤ ms.length := by omega
  refine ⟨t, r, ht, hr, ⟨?_, ?_, ?_, ?_⟩, ?_, linksConsistent_of_holds r h _ HR⟩
  · rw [LLHolds_size r h _ HR, length_insert ms i _ hil, hlen]; push_cast; rfl
  · intro k hk
    obtain ⟨⟨a, y⟩, hv⟩ := getElem?_of_lt ms k (by omega)
    have h1 : (ms.take i ++ (t.heap.length, x) :: ms.drop i)[k]? = some (a, y) := by
      rw [getElem?_insert_lt ms i k _ hk hil, hv]
    show (LLget r h k).map Prod.fst = es[k]?
    rw [LLHolds_get r h _ HR k a y h1, map_snd_getElem? ms es hm k a y hv]
    rfl
  · have h1 := getElem?_insert_eq ms i (t.heap.length, x) hil
    show (LLget r h i).map Prod.fst = some x
    rw [LLHolds_get r h _ HR i _ x h1]
    rfl
  · intro k hk1 hk2
    obtain ⟨⟨a, y⟩, hv⟩ := getElem?_of_lt ms k (by omega)
    have h1 : (ms.take i ++ (t.heap.length, x) :: ms.drop i)[k + 1]? = some (a, y) := by
      rw [getElem?_insert_gt ms i k _ hk1 hil, hv]
    show (LLget r h ((k : Int) + 1)).map Prod.fst = es[k]?
    have := LLHolds_get r h _ HR (k + 1) a y h1
    push_cast at this
    rw [this, map_snd_getElem? ms es hm k a y hv]
    rfl
  · intro h0
    refine ⟨hhead h0, ?_⟩
    subst h0
    have h1 := getElem?_insert_eq ms 0 (t.heap.length, x) hil
    rw [rd_chain r.heap _ HR.2.2.2.1 0 _ x h1]
    rfl

theorem C7_linkedlist_set_inserts_witness :
    LLempty (LLnew junk0 (LLinit junk0)).2 0 ∧
    (1 : Nat) < ([some 97, some 98, some 99] : List Ptr).length ∧
    ∃ t r, LLadds (LLnew junk0 (LLinit junk0)).2 0 [some 97, some 98, some 99] = some t ∧
      LLset t 0 (1 : Nat) (some 120) = some (some 120, r) ∧
      InsertedAtLL [some 97, some 98, some 99] 1 (some 120) (LLsize r 0).1
        (fun k => (LLget r 0 k).map Prod.fst) ∧
      ((1 : Nat) = 0 → (r.controller.buckets 0).head = some t.heap.length ∧
        (rd r.heap (some t.heap.length)).map _Node.data = some (some 120)) ∧
      LinksConsistent r.heap (r.controller.buckets 0).head :=
  ⟨⟨by decide, by decide, by decide⟩, by decide,
    C7_linkedlist_set_inserts (LLnew junk0 (LLinit junk0)).2 0 [some 97, some 98, some 99] 1
      (some 120) ⟨by decide, by decide, by decide⟩ (by decide)⟩

/-! ### `LLremove` at a positive index -/

theorem removeWalk_pos (heap : List (Option _Node)) (i : Int) (hi : 0 < i) (fuel : Nat) :
    ∀ n : Option Nat, removeWalk heap i fuel n 0 = none ∨ removeWalk heap i fuel n 0 = some none := by
  induction fuel with
  | zero => intro n; left; rfl
  | succ fuel ih =>
    intro n
    cases n with
    | none => right; simp [removeWalk]
    | some a =>
      simp only [removeWalk, ne_eq, not_false_eq_true, hi, and_self, if_true]
      cases rd heap (some a) with
      | none => left; rfl
      | some nd => exact ih nd.next

/-- With a non-empty list and `i > 0`, `LLremove` has no result: its loop
`while (n && (c < i))` never advances `c`, so it ends with `n == NULL` (or
not at all) and `n->next` is then read through `NULL`. -/
theorem LLremove_pos_no_result (s : LLState) (h : Int) (i : Int)
    (hv : h < s.controller.used_buckets) (hh : (s.controller.buckets h).head ≠ none)
    (hi : 0 < i) : LLremove s h i = none := by
  have hval : (validhandler s h).1 ≠ 0 := by simp [validhandler_of_lt s h hv]
  obtain ⟨hd, hhd⟩ : ∃ hd, (s.controller.buckets h).head = some hd := by
    cases hx : (s.controller.buckets h).head with
    | none => exact absurd hx hh
    | some hd => exact ⟨hd, rfl⟩
  simp only [LLremove, hval, ne_eq, not_false_eq_true, if_true, hhd, hi]
  rcases removeWalk_pos s.heap i hi (s.heap.length + 1) (some hd) with hw | hw
  · rw [hw]
  · rw [hw]; rfl

/-- C5 at `["a","b","c"]` and index 1. The three `LLadd` calls return, and
`LLremove(h, 1)` on the resulting list has no result. -/
theorem C5_remove_middle_no_result :
    ∃ t, LLadds (LLnew junk0 (LLinit junk0)).2 0 [some 97, some 98, some 99] = some t ∧
      (LLsize t 0).1 = 3 ∧ LLremove t 0 1 = none := by
  obtain ⟨t, ms, ht, H, hm⟩ := LLHolds_adds 0 [some 97, some 98, some 99]
    (LLnew junk0 (LLinit junk0)).2 [] (LLHolds_of_empty _ _ ⟨by decide, by decide, by decide⟩)
  have hlen : ms.length = 3 := by
    have := congrArg List.length hm
    simpa using this
  refine ⟨t, ht, ?_, ?_⟩
  · rw [LLHolds_size t 0 ms H, hlen]; rfl
  · apply LLremove_pos_no_result t 0 1 H.1 _ (by decide)
    rw [H.2.2.1]
    obtain ⟨v, hv⟩ := getElem?_of_lt ms 0 (by omega)
    rw [hv]
    exact Option.noConfusion

/-! ### Linked-list iterator -/

/-- C9 at `["x","y","z"]`. Three `next` then three `prev` on a fresh iterator
return `"x","y","z","y","x","x"`: the loop of `LLitprev` starts at `i = 1`, so
`prev` returns the element one position before the new cursor (the first
element when the new cursor is 0); the iterator ends at cursor 0 with
`hasprev` 0. -/
theorem C9_prev_sequence :
    (LLadds (LLnew junk0 (LLinit junk0)).2 0 [some 120, some 121, some 122]).bind
      (fun t => LLnextsThenPrevs t (LLiterator g0.it t 0).1 3) =
    some ([some 120, some 121, some 122, some 121, some 120, some 120],
      { handler := 0, carriage := 0, total_elems := 3, hasnext := 1, hasprev := 0 }) := by
  decide

/-! ## Registry: handles, Dispose and Purge -/

/-- C11 on the code. From the empty registry, `h = New(); Dispose(h);
h2 = New()`: the array-list and the linked list hand out `h = 0` again, the
array kind hands out `1`, because `Adispose` frees the block but neither
clears the slot's `buckets` pointer nor lowers `used_buckets`, so `getfree`
walks past slot 0. -/
theorem C11_array_dispose_not_reused (g : Garbage) (junk : Int → _LinkedList) (z c : Int) :
    (Anew g (Ainit g) z).1 = 0 ∧
    (Anew g (Adispose (Anew g (Ainit g) z).2 (Anew g (Ainit g) z).1) z).1 = 1 ∧
    (ALnew g (Ainit g) c).1 = 0 ∧
    (ALnew g (ALdispose (ALnew g (Ainit g) c).2 (ALnew g (Ainit g) c).1) c).1 = 0 ∧
    (LLnew junk (LLinit junk)).1 = 0 ∧
    (LLdispose (LLnew junk (LLinit junk)).2 (LLnew junk (LLinit junk)).1).map
      (fun t => (LLnew junk t).1) = some 0 := by
  refine ⟨?_, ?_, ?_, ?_, ?_, ?_⟩
  · simp [Anew, Ainit, growTable, getfree, getfreeLoop]
  · simp [Anew, Adispose, Ainit, growTable, getfree, getfreeLoop, _Controller.store,
      INITCAPACITY, malloc, free]
  · simp [ALnew, Ainit, growTable, getfreearray, getfreeLoop]
  · simp [ALnew, ALdispose, Ainit, growTable, getfreearray, getfreeLoop, _Controller.store,
      INITCAPACITY]
  · simp [LLnew, LLinit, getfreelist, getfreelistLoop]
  · simp [LLnew, LLdispose, LLpurge, purgeLoop, validhandler, LLinit, getfreelist,
      getfreelistLoop, LL_Controller.store, LL_INITCAPACITY]

theorem LLnew_heap (junk : Int → _LinkedList) (u : LLState) :
    (LLnew junk u).2.heap = u.heap := rfl

/-- C13 on the code. After one `Anew`/`ALnew` on the empty registry
(`used_buckets = 1`), `Size(1)` and `Size(-1)` pass the test
`handler <= used_buckets`: they return the `used_buckets` field of a slot that
was never created and leave `errno` alone, where the claim says -1 and
`EFAULT`. -/
theorem C13_size_accepts_out_of_range (g : Garbage) (z c : Int) :
    (Anew g (Ainit g) z).2.controller.used_buckets = 1 ∧
    Asize (Anew g (Ainit g) z).2 1 = ((g.slot 1).used_buckets, (Anew g (Ainit g) z).2) ∧
    Asize (Anew g (Ainit g) z).2 (-1) = ((g.slot (-1)).used_buckets, (Anew g (Ainit g) z).2) ∧
    (ALnew g (Ainit g) c).2.controller.used_buckets = 1 ∧
    ALsize (ALnew g (Ainit g) c).2 1 = ((g.slot 1).used_buckets, (ALnew g (Ainit g) c).2) ∧
    ALsize (ALnew g (Ainit g) c).2 (-1) =
      ((g.slot (-1)).used_buckets, (ALnew g (Ainit g) c).2) := by
  refine ⟨?_, ?_, ?_, ?_, ?_, ?_⟩ <;>
    simp [Asize, ALsize, Anew, ALnew, Ainit, growTable, getfree, getfreearray, getfreeLoop,
      _Controller.store, INITCAPACITY]

/-- The array kinds reject exactly the handles above `used_buckets`. -/
theorem Asize_rejects (s : AState) (h : Int) (hv : s.controller.used_buckets < h) :
    Asize s h = (-1, { s with errno := EFAULT }) ∧
    ALsize s h = (-1, { s with errno := EFAULT }) := by
  have : ¬ h ≤ s.controller.used_buckets := by omega
  simp [Asize, ALsize, this]

/-- C14. Array-list `Purge`: for every handle `h` the operations accept,
whatever the slot holds, after `ALpurge(h)` the size is 0, the recorded
capacity and the allocated block are the default 30, `h` is still accepted
and the registry's `used_buckets` is unchanged. -/
theorem C14_arraylist_purge (g : Garbage) (s : AState) (h : Int)
    (hv : h ≤ s.controller.used_buckets) :
    ALsize (ALpurge g s h) h = (0, ALpurge g s h) ∧
    ((ALpurge g s h).controller.buckets h).total_buckets = 30 ∧
    ((ALpurge g s h).controller.buckets h).buckets.cells = 30 ∧
    h ≤ (ALpurge g s h).controller.used_buckets ∧
    (ALpurge g s h).controller.used_buckets = s.controller.used_buckets := by
  have h1 : (ALpurge g s h).controller.used_buckets = s.controller.used_buckets := by
    simp [ALpurge, hv, _Controller.store]
  refine ⟨?_, ?_, ?_, by rw [h1]; exact hv, h1⟩
  · have h2 : ((ALpurge g s h).controller.buckets h).used_buckets = 0 := by
      simp [ALpurge, hv, _Controller.store]
    simp only [ALsize, h1, hv, if_true, h2]
  · simp [ALpurge, hv, _Controller.store, A_INITCAPACITY]
  · simp [ALpurge, hv, _Controller.store, A_INITCAPACITY, malloc]

theorem C14_arraylist_purge_witness :
    (ALbuild g0 (Ainit g0) 4 [some 97, some 98, some 99]).1 ≤
      (ALbuild g0 (Ainit g0) 4 [some 97, some 98, some 99]).2.controller.used_buckets ∧
    (ALsize (ALpurge g0 (ALbuild g0 (Ainit g0) 4 [some 97, some 98, some 99]).2
        (ALbuild g0 (Ainit g0) 4 [some 97, some 98, some 99]).1)
        (ALbuild g0 (Ainit g0) 4 [some 97, some 98, some 99]).1 =
      (0, ALpurge g0 (ALbuild g0 (Ainit g0) 4 [some 97, some 98, some 99]).2
        (ALbuild g0 (Ainit g0) 4 [some 97, some 98, some 99]).1) ∧
    ((ALpurge g0 (ALbuild g0 (Ainit g0) 4 [some 97, some 98, some 99]).2
        (ALbuild g0 (Ainit g0) 4 [some 97, some 98, some 99]).1).controller.buckets
        (ALbuild g0 (Ainit g0) 4 [some 97, some 98, some 99]).1).total_buckets = 30 ∧
    ((ALpurge g0 (ALbuild g0 (Ainit g0) 4 [some 97, some 98, some 99]).2
        (ALbuild g0 (Ainit g0) 4 [some 97, some 98, some 99]).1).controller.buckets
        (ALbuild g0 (Ainit g0) 4 [some 97, some 98, some 99]).1).buckets.cells = 30 ∧
    (ALbuild g0 (Ainit g0) 4 [some 97, some 98, some 99]).1 ≤
      (ALpurge g0 (ALbuild g0 (Ainit g0) 4 [some 97, some 98, some 99]).2
        (ALbuild g0 (Ainit g0) 4 [some 97, some 98, some 99]).1).controller.used_buckets ∧
    (ALpurge g0 (ALbuild g0 (Ainit g0) 4 [some 97, some 98, some 99]).2
        (ALbuild g0 (Ainit g0) 4 [some 97, some 98, some 99]).1).controller.used_buckets =
      (ALbuild g0 (Ainit g0) 4 [some 97, some 98, some 99]).2.controller.used_buckets) :=
  ⟨by decide,
    C14_arraylist_purge g0 (ALbuild g0 (Ainit g0) 4 [some 97, some 98, some 99]).2
      (ALbuild g0 (Ainit g0) 4 [some 97, some 98, some 99]).1 (by decide)⟩

/-- C15 on the code. On the empty registry, `h = LLnew(); LLpurge(h);
h2 = LLnew()` gives `h2 = h = 0`: `LLpurge` sets `head` to `NULL`, which is
what `getfreelist` takes for a free slot. -/
theorem C15_purge_then_new_same_handle (junk : Int → _LinkedList) :
    (LLnew junk (LLinit junk)).1 = 0 ∧
    (LLpurge (LLnew junk (LLinit junk)).2 0).map (fun t => (LLnew junk t).1) = some 0 := by
  refine ⟨?_, ?_⟩
  · simp [LLnew, LLinit, getfreelist, getfreelistLoop]
  · simp [LLnew, LLpurge, purgeLoop, validhandler, LLinit, getfreelist,
      getfreelistLoop, LL_Controller.store, LL_INITCAPACITY]

/-- The same with an element in the list: `h = LLnew(); LLadd(h, "a");
LLpurge(h); h2 = LLnew()` on a zero-filled slot table gives `h2 = 0 = h`. -/
theorem LLpurge_then_new_nonempty :
    ((LLadd (LLnew junk0 (LLinit junk0)).2 0 (some 97)).bind
      (fun r => LLpurge r.2 0)).map (fun t => (LLnew junk0 t).1) = some 0 := by
  decide

/-! ## Sequences of calls on the array kinds -/

theorem ALapply_holds (g : Garbage) (h : Int) (s : AState) (es : List Ptr) (op : AOp)
    (H : AHolds s h es) (hr : op.inRange (ALsize s h).1) :
    ∃ es1, AHolds (ALapply g h s op) h es1 ∧
      (es1.length : Int) + numRemove [op] = es.length + numAdd [op] + numSet [op] := by
  have hsz : (ALsize s h).1 = es.length := by
    rw [ALsize_eq_Asize]; exact AHolds_size s h es H
  cases op with
  | add e =>
    refine ⟨es ++ [e], ?_, by simp [numAdd, numSet, numRemove]⟩
    simp only [ALapply, ALadd_eq_Aadd]
    exact AHolds_add g s h es e H
  | set i e =>
    obtain ⟨h0, h1⟩ := hr
    rw [hsz] at h1
    have hi : ((i.toNat : Nat) : Int) = i := Int.toNat_of_nonneg h0
    have hle : i.toNat ≤ es.length := by omega
    refine ⟨es.take i.toNat ++ e :: es.drop i.toNat, ?_, ?_⟩
    · have := (AHolds_ALset g s h es i.toNat e H hle).2
      rw [hi] at this
      exact this
    · rw [length_insert es i.toNat e hle]
      simp [numAdd, numSet, numRemove]
  | remove i =>
    obtain ⟨h0, h1⟩ := hr
    rw [hsz] at h1
    have hi : ((i.toNat : Nat) : Int) = i := Int.toNat_of_nonneg h0
    have hlt : i.toNat < es.length := by omega
    refine ⟨es.eraseIdx i.toNat, ?_, ?_⟩
    · have := (AHolds_remove s h es i.toNat H hlt).2
      rw [hi] at this
      simp only [ALapply, ALremove_eq_Aremove]
      exact this
    · simp only [List.length_eraseIdx, hlt, if_true, numAdd, numSet, numRemove]
      omega

theorem Aapply_holds (g : Garbage) (h : Int) (s : AState) (es : List Ptr) (op : AOp)
    (H : AHolds s h es) (hr : op.inRange (Asize s h).1) :
    ∃ es1, AHolds (Aapply g h s op) h es1 ∧
      (es1.length : Int) + numRemove [op] = es.length + numAdd [op] + numSet [op] := by
  have hsz : (Asize s h).1 = es.length := AHolds_size s h es H
  cases op with
  | add e =>
    exact ⟨es ++ [e], AHolds_add g s h es e H, by simp [numAdd, numSet, numRemove]⟩
  | set i e =>
    obtain ⟨h0, h1⟩ := hr
    rw [hsz] at h1
    have hi : ((i.toNat : Nat) : Int) = i := Int.toNat_of_nonneg h0
    have hle : i.toNat ≤ es.length := by omega
    refine ⟨es.take i.toNat ++ e :: es.drop i.toNat, ?_, ?_⟩
    · have := (AHolds_set g s h es i.toNat e H hle).2
      rw [hi] at this
      exact this
    · rw [length_insert es i.toNat e hle]
      simp [numAdd, numSet, numRemove]
  | remove i =>
    obtain ⟨h0, h1⟩ := hr
    rw [hsz] at h1
    have hi : ((i.toNat : Nat) : Int) = i := Int.toNat_of_nonneg h0
    have hlt : i.toNat < es.length := by omega
    refine ⟨es.eraseIdx i.toNat, ?_, ?_⟩
    · have := (AHolds_remove s h es i.toNat H hlt).2
      rw [hi] at this
      exact this
    · simp only [List.length_eraseIdx, hlt, if_true, numAdd, numSet, numRemove]
      omega

theorem num_cons (op : AOp) (r : List AOp) :
    numAdd (op :: r) = numAdd [op] + numAdd r ∧ numSet (op :: r) = numSet [op] + numSet r ∧
    numRemove (op :: r) = numRemove [op] + numRemove r := by
  cases op <;> simp [numAdd, numSet, numRemove] <;> omega

theorem Arun_holds (g : Garbage) (h : Int) (ops : List AOp) :
    ∀ (s : AState) (es : List Ptr), AHolds s h es → AopsInRange g h s ops →
      ∃ es1, AHolds (Arun g h s ops) h es1 ∧
        (es1.length : Int) + numRemove ops = es.length + numAdd ops + numSet ops := by
  induction ops with
  | nil =>
    intro s es H _
    exact ⟨es, H, by simp [numAdd, numSet, numRemove]⟩
  | cons op r ih =>
    intro s es H hr
    obtain ⟨es1, H1, hl1⟩ := Aapply_holds g h s es op H hr.1
    obtain ⟨es2, H2, hl2⟩ := ih _ es1 H1 hr.2
    obtain ⟨n1, n2, n3⟩ := num_cons op r
    refine ⟨es2, H2, ?_⟩
    rw [n1, n2, n3]
    push_cast
    omega

theorem ALrun_holds (g : Garbage) (h : Int) (ops : List AOp) :
    ∀ (s : AState) (es : List Ptr), AHolds s h es → ALopsInRange g h s ops →
      ∃ es1, AHolds (ALrun g h s ops) h es1 ∧
        (es1.length : Int) + numRemove ops = es.length + numAdd ops + numSet ops := by
  induction ops with
  | nil =>
    intro s es H _
    exact ⟨es, H, by simp [numAdd, numSet, numRemove]⟩
  | cons op r ih =>
    intro s es H hr
    obtain ⟨es1, H1, hl1⟩ := ALapply_holds g h s es op H hr.1
    obtain ⟨es2, H2, hl2⟩ := ih _ es1 H1 hr.2
    obtain ⟨n1, n2, n3⟩ := num_cons op r
    refine ⟨es2, H2, ?_⟩
    rw [n1, n2, n3]
    push_cast
    omega

/-- `Set` counts in `Size`. Array kind, fresh container, `Aadd(h, "a")` then
`Aset(h, 0, "b")` (index in range): `Asize(h)` is 2, while the number of `Add`
calls minus the number of `Remove` calls is 1. -/
theorem set_counts_in_size :
    AopsInRange g0 (Anew g0 (Ainit g0) 0).1 (Anew g0 (Ainit g0) 0).2
      [AOp.add (some 97), AOp.set 0 (some 98)] ∧
    (Asize (Arun g0 (Anew g0 (Ainit g0) 0).1 (Anew g0 (Ainit g0) 0).2
      [AOp.add (some 97), AOp.set 0 (some 98)]) (Anew g0 (Ainit g0) 0).1).1 = 2 ∧
    (Asize (Arun g0 (Anew g0 (Ainit g0) 0).1 (Anew g0 (Ainit g0) 0).2
      [AOp.add (some 97), AOp.set 0 (some 98)]) (Anew g0 (Ainit g0) 0).1).1 ≠
      (numAdd [AOp.add (some 97), AOp.set 0 (some 98)] : Int) -
        numRemove [AOp.add (some 97), AOp.set 0 (some 98)] := by
  refine ⟨⟨trivial, ⟨by decide, by decide⟩, trivial⟩, by decide, by decide⟩

/-- The counter of the array kinds, for a capacity of at least 1: after any
sequence of `Add`, `Set` and `Remove` calls with in-range indices on a fresh
container, `used_buckets` is the number of `Add` calls plus the number of
`Set` calls minus the number of `Remove` calls, in a run in which the cells
past the block behave as ordinary memory. -/
theorem size_counts_add_set_remove (g : Garbage) (s t : AState) (z c : Int)
    (ops : List AOp) (hs : 0 ≤ s.controller.used_buckets)
    (ht : 0 ≤ t.controller.used_buckets) (hc : 1 ≤ c)
    (hr : AopsInRange g (Anew g s z).1 (Anew g s z).2 ops)
    (hl : ALopsInRange g (ALnew g t c).1 (ALnew g t c).2 ops) :
    (Asize (Arun g (Anew g s z).1 (Anew g s z).2 ops) (Anew g s z).1).1 =
      (numAdd ops : Int) + numSet ops - numRemove ops ∧
    (ALsize (ALrun g (ALnew g t c).1 (ALnew g t c).2 ops) (ALnew g t c).1).1 =
      (numAdd ops : Int) + numSet ops - numRemove ops := by
  obtain ⟨es1, H1, h1⟩ := Arun_holds g _ ops _ [] (AHolds_new g s z hs) hr
  obtain ⟨es2, H2, h2⟩ := ALrun_holds g _ ops _ [] (AHolds_ALnew g t c ht hc) hl
  rw [ALsize_eq_Asize, AHolds_size _ _ _ H1, AHolds_size _ _ _ H2]
  simp only [List.length_nil, Nat.cast_zero] at h1 h2
  constructor <;> omega

/-- The counters of the array kind in a run in which the cells past the block
behave as ordinary memory: after `Anew` and any sequence of `Aadd`, `Aset`
with `0 ≤ i ≤ used_buckets` and `Aremove` with `0 ≤ i < used_buckets`, the
slot has `0 ≤ used_buckets ≤ total_buckets`; and `check` turns
`total_buckets` into exactly `2 * total_buckets` when
`4 * used_buckets > 3 * total_buckets` and leaves it unchanged otherwise, never
touching `used_buckets`. -/
theorem capacity_invariant (g : Garbage) (s : AState) (z : Int) (ops : List AOp)
    (hs : 0 ≤ s.controller.used_buckets)
    (hr : AopsInRange g (Anew g s z).1 (Anew g s z).2 ops) :
    (0 ≤ ((Arun g (Anew g s z).1 (Anew g s z).2 ops).controller.buckets
        (Anew g s z).1).used_buckets ∧
      ((Arun g (Anew g s z).1 (Anew g s z).2 ops).controller.buckets
        (Anew g s z).1).used_buckets ≤
      ((Arun g (Anew g s z).1 (Anew g s z).2 ops).controller.buckets
        (Anew g s z).1).total_buckets) ∧
    ∀ a : _Array,
      (check g a).total_buckets =
        (if 3 * a.total_buckets < 4 * a.used_buckets then 2 * a.total_buckets
         else a.total_buckets) ∧
      (check g a).used_buckets = a.used_buckets := by
  obtain ⟨es1, H1, _⟩ := Arun_holds g _ ops _ [] (AHolds_new g s z hs) hr
  refine ⟨?_, ?_⟩
  · have h1 := H1.2.used
    have h2 := H1.2.load
    have h3 := H1.2.total_pos
    constructor <;> omega
  · intro a
    unfold check
    split
    · simp only [EXPRATE, if_true, *]
      constructor
      · omega
      · trivial
    · simp only [if_false, *]
      exact ⟨trivial, trivial⟩

/-! ## Iterator bounds and iterators on a changing container -/

/-- C19 on the code. On a list slot that starts empty with a `NULL` tail:
after `LLadd(h,"a")` and `LLadd(h,"b")` the chain has two nodes and `tail` is
still `NULL`; after `LLremove(h, 0)` the head is the former second node, one
node is left, and `tail` is still `NULL`. No function assigns `tail` a node. -/
theorem C19_tail_never_set :
    (LLadds (LLnew junk0 (LLinit junk0)).2 0 [some 97, some 98]).map
        (fun t => t.controller.buckets 0) =
      some { used_buckets := 2, head := some 0, tail := none } ∧
    ((LLadds (LLnew junk0 (LLinit junk0)).2 0 [some 97, some 98]).bind
        (fun t => LLremove t 0 0)).map (fun r => (r.1, r.2.controller.buckets 0)) =
      some (some 97, { used_buckets := 1, head := some 1, tail := none }) := by
  refine ⟨by decide, by decide⟩

/-- `LLadd` leaves the `tail` field of the slot as it finds it. -/
theorem LLadd_tail (s : LLState) (h : Int) (e : Ptr) (r : Ptr × LLState)
    (hr : LLadd s h e = some r) :
    (r.2.controller.buckets h).tail = (s.controller.buckets h).tail := by
  unfold LLadd at hr
  by_cases hv : (validhandler s h).1 ≠ 0
  · rw [if_pos hv] at hr
    dsimp only at hr
    cases hh : (s.controller.buckets h).head with
    | none =>
      rw [hh] at hr
      simp only [Option.some.injEq] at hr
      subst hr
      simp [LL_Controller.store]
    | some hd =>
      rw [hh] at hr
      dsimp only at hr
      cases hl : lastNode s.heap (s.heap.length + 1) hd with
      | none => rw [hl] at hr; exact Option.noConfusion hr
      | some prev =>
        rw [hl] at hr
        dsimp only at hr
        cases hp : rd s.heap (some prev) with
        | none => rw [hp] at hr; exact Option.noConfusion hr
        | some pn =>
          rw [hp] at hr
          simp only [Option.some.injEq] at hr
          subst hr
          simp [LL_Controller.store]
  · rw [if_neg hv] at hr
    simp only [Option.some.injEq] at hr
    subst hr
    simp only [validhandler]
    split <;> rfl

/-! ## Handles of the array-list after `ALdispose` -/

theorem check_used (g : Garbage) (a : _Array) : (check g a).used_buckets = a.used_buckets := by
  unfold check
  split <;> rfl

/-- C22 on the code. From program start, with capacities `n + 1` and `m`:
`h0 = ALnew(n + 1); h1 = ALnew(n + 1); ALadd(h1, x); ALdispose(h0)` gives
`h0 = 0`, `h1 = 1`, `ALsize(h1) = 1` and `ALget(h1, 0) = x`. The next
`ALnew(m)` returns `1`, the handle of the live container `h1`, and overwrites
its slot: `ALsize(h1)` is then 0 and `ALget(h1, 0)` is the content of the fresh
block. `ALdispose` lowers `used_buckets` to 1 and leaves the freed `buckets`
pointer of slot 0 non-null, so `getfreearray` walks past slot 0 and stops at
the count. -/
theorem C22_new_returns_live_handle (g : Garbage) (n m : Nat) (x : Ptr) :
    (ALnew g (Ainit g) (n + 1)).1 = 0 ∧
    (ALnew g (ALnew g (Ainit g) (n + 1)).2 (n + 1)).1 = 1 ∧
    (ALsize (ALdisposeFirst g (n + 1) x) 1).1 = 1 ∧
    (ALget (ALdisposeFirst g (n + 1) x) 1 0).1 = x ∧
    (ALnew g (ALdisposeFirst g (n + 1) x) m).1 = 1 ∧
    (ALsize (ALnew g (ALdisposeFirst g (n + 1) x) m).2 1).1 = 0 ∧
    (ALget (ALnew g (ALdisposeFirst g (n + 1) x) m).2 1 0).1 = g.cell 0 := by
  have hn : (0 : Int) ≤ n := Int.ofNat_nonneg n
  have hm : (0 : Int) ≤ m := Int.ofNat_nonneg m
  refine ⟨?_, ?_, ?_, ?_, ?_, ?_, ?_⟩
  · simp [ALnew, Ainit, growTable, getfreearray, getfreeLoop]
  · simp [ALnew, Ainit, growTable, getfreearray, getfreeLoop, _Controller.store, INITCAPACITY,
      malloc]
  · simp [ALdisposeFirst, ALsize, ALnew, ALadd, ALdispose, Ainit, growTable, getfreearray,
      getfreeLoop, _Controller.store, INITCAPACITY, malloc, free, check_used]
  · simp only [ALdisposeFirst, ALget, ALnew, ALadd, ALdispose, Ainit, growTable, getfreearray,
      getfreeLoop, _Controller.store, INITCAPACITY, malloc, free, check, realloc, Buffer.write,
      EXPRATE]
    have h1 : (0 : Int) ≤ (n : Int) + 1 := by omega
    have h2 : (0 : Int) ≤ ((n : Int) + 1) * 2 := by omega
    by_cases hg : 3 * ((n : Int) + 1) < 4 <;> simp [hg, h1, h2]
  · simp [ALdisposeFirst, ALnew, ALadd, ALdispose, Ainit, growTable, getfreearray,
      getfreeLoop, _Controller.store, INITCAPACITY, malloc, free, check_used]
  · simp [ALdisposeFirst, ALsize, ALnew, ALadd, ALdispose, Ainit, growTable, getfreearray,
      getfreeLoop, _Controller.store, INITCAPACITY, malloc, free, check_used]
  · simp [ALdisposeFirst, ALget, ALnew, ALadd, ALdispose, Ainit, growTable, getfreearray,
      getfreeLoop, _Controller.store, INITCAPACITY, malloc, free, check_used, hm]

/-- C23 on the code. From program start, `h0, h1, h2 = ALnew(c)` gives the
handles 0, 1, 2 with `ALsize(h2) = 0`. After `ALdispose(h0)` and
`ALdispose(h1)` the registry's `used_buckets` is 1, and `ALsize(h2)` and
`ALget(h2, k)` fail the test `handler <= used_buckets`: they return -1 and
`NULL` and set `errno` to `EFAULT`. -/
theorem C23_dispose_invalidates_other_handle (g : Garbage) (c k : Int) :
    (ALnew g (Ainit g) c).1 = 0 ∧
    (ALnew g (ALnew g (Ainit g) c).2 c).1 = 1 ∧
    (ALnew g (ALnew g (ALnew g (Ainit g) c).2 c).2 c).1 = 2 ∧
    (ALsize (ALthree g c) 2).1 = 0 ∧
    (ALsize (ALthree g c) 2).2.errno = 0 ∧
    (ALdispose (ALdispose (ALthree g c) 0) 1).controller.used_buckets = 1 ∧
    (ALsize (ALdispose (ALdispose (ALthree g c) 0) 1) 2).1 = -1 ∧
    (ALsize (ALdispose (ALdispose (ALthree g c) 0) 1) 2).2.errno = EFAULT ∧
    (ALget (ALdispose (ALdispose (ALthree g c) 0) 1) 2 k).1 = none ∧
    (ALget (ALdispose (ALdispose (ALthree g c) 0) 1) 2 k).2.errno = EFAULT := by
  refine ⟨?_, ?_, ?_, ?_, ?_, ?_, ?_, ?_, ?_, ?_⟩ <;>
    simp [ALthree, ALsize, ALget, ALnew, ALdispose, Ainit, growTable, getfreearray,
      getfreeLoop, _Controller.store, INITCAPACITY, malloc, free]

/-! ## `Remove` and `Set` with an index out of range -/

/-- The effect of `Aremove` on `Asize` for an accepted handle: every index
`i ≤ total_buckets`, the negative ones included, lowers it by one whatever it
was; it is unchanged only for `i > total_buckets`. -/
theorem Aremove_size (s : AState) (h i : Int) (hv : h ≤ s.controller.used_buckets) :
    (Asize (Aremove s h i).2 h).1 =
      if i ≤ (s.controller.buckets h).total_buckets then (Asize s h).1 - 1
      else (Asize s h).1 := by
  by_cases hi : i ≤ (s.controller.buckets h).total_buckets <;>
    simp [Aremove, Asize, hv, hi, _Controller.store]

/-- C24 on the code. On a freshly created, empty array or array-list (of any
capacity `c ≥ 0`), `Remove(h, 0)` and `Remove(h, -1)` pass the only index test
there is, `i <= total_buckets`, and decrement `used_buckets`: `Size(h)` goes
from 0 to -1. -/
theorem C24_remove_on_empty_negative_size (g : Garbage) (z : Int) (c : Nat) :
    (Asize (Anew g (Ainit g) z).2 (Anew g (Ainit g) z).1).1 = 0 ∧
    (Asize (Aremove (Anew g (Ainit g) z).2 (Anew g (Ainit g) z).1 0).2
      (Anew g (Ainit g) z).1).1 = -1 ∧
    (Asize (Aremove (Anew g (Ainit g) z).2 (Anew g (Ainit g) z).1 (-1)).2
      (Anew g (Ainit g) z).1).1 = -1 ∧
    (ALsize (ALnew g (Ainit g) c).2 (ALnew g (Ainit g) c).1).1 = 0 ∧
    (ALsize (ALremove (ALnew g (Ainit g) c).2 (ALnew g (Ainit g) c).1 0).2
      (ALnew g (Ainit g) c).1).1 = -1 ∧
    (ALsize (ALremove (ALnew g (Ainit g) c).2 (ALnew g (Ainit g) c).1 (-1)).2
      (ALnew g (Ainit g) c).1).1 = -1 := by
  have hc : (0 : Int) ≤ c := Int.ofNat_nonneg c
  have hc1 : (-1 : Int) ≤ c := by omega
  refine ⟨?_, ?_, ?_, ?_, ?_, ?_⟩ <;>
    simp [Asize, ALsize, Aremove, ALremove, Anew, ALnew, Ainit, growTable, getfree,
      getfreearray, getfreeLoop, _Controller.store, INITCAPACITY, hc, hc1]

/-- C25. Linked-list `Set` with a bad index: for every valid handle `h`,
whatever list it holds, and every `i` with `i < 0` or `i ≥ LLsize(h)` (so
`i = n` on a list of `n` elements and every `i` on an empty list),
`LLset(h, i, x)` returns `x` and the whole program state is the one before the
call: same size, same nodes in the same order, same head. -/
theorem C25_linkedlist_set_bad_index (s : LLState) (h : Int) (i : Int) (x : Ptr)
    (hv : h < s.controller.used_buckets) (hi : i < 0 ∨ (LLsize s h).1 ≤ i) :
    LLset s h i x = some (x, s) := by
  have hval : (validhandler s h).1 ≠ 0 := by simp [validhandler_of_lt s h hv]
  have hsz : (LLsize s h).1 = (s.controller.buckets h).used_buckets := by
    simp [LLsize, validhandler_of_lt s h hv]
  rw [hsz] at hi
  have hno : ¬ ((validhandler s h).1 ≠ 0 ∧ 0 ≤ i ∧ i < (s.controller.buckets h).used_buckets) := by
    rintro ⟨_, h1, h2⟩
    omega
  rw [LLset, if_neg hno, if_pos hval]

theorem C25_linkedlist_set_bad_index_witness :
    (0 : Int) < twoElems.controller.used_buckets ∧
    ((2 : Int) < 0 ∨ (LLsize twoElems 0).1 ≤ 2) ∧
    LLset twoElems 0 2 (some 120) = some (some 120, twoElems) :=
  ⟨by decide, Or.inr (by decide),
    C25_linkedlist_set_bad_index twoElems 0 2 (some 120) (by decide) (Or.inr (by decide))⟩

/-! ## Growth of a default-capacity array under `Aadd` -/

/-- One `Aadd` on a slot of the default capacity: with `n` elements stored,
recorded capacity 30 before the 23rd element and 60 from then on, and a block
of 30 cells before the 23rd element and 46 from then on, the same holds with
`n + 1` elements, up to 45 elements. -/
theorem check_default_step (g : Garbage) (a : _Array) (e : Ptr) (n : Nat)
    (hu : a.used_buckets = n)
    (ht : a.total_buckets = if n < 23 then 30 else 60)
    (hc : a.buckets.cells = if n < 23 then 30 else 46)
    (hn : n + 1 ≤ 45) :
    (check g { a with buckets := a.buckets.write a.used_buckets e,
                      used_buckets := a.used_buckets + 1 }).used_buckets = ((n + 1 : Nat) : Int) ∧
    (check g { a with buckets := a.buckets.write a.used_buckets e,
                      used_buckets := a.used_buckets + 1 }).total_buckets =
      (if n + 1 < 23 then 30 else 60) ∧
    (check g { a with buckets := a.buckets.write a.used_buckets e,
                      used_buckets := a.used_buckets + 1 }).buckets.cells =
      (if n + 1 < 23 then 30 else 46) := by
  refine ⟨by rw [check_used]; simp [hu], ?_, ?_⟩
  · unfold check
    by_cases h1 : n < 22
    · have h2 : n < 23 := by omega
      have h3 : n + 1 < 23 := by omega
      have h4 : ¬ ((90 : Int) < 4 * ((n : Int) + 1)) := by omega
      simp [hu, ht, h2, h3, h4]
    · by_cases h2 : n = 22
      · subst h2
        simp [hu, ht, EXPRATE]
      · have h3 : ¬ n < 23 := by omega
        have h4 : ¬ n + 1 < 23 := by omega
        have h5 : ¬ ((180 : Int) < 4 * ((n : Int) + 1)) := by omega
        simp [hu, ht, h3, h4, h5]
  · unfold check
    by_cases h1 : n < 22
    · have h2 : n < 23 := by omega
      have h3 : n + 1 < 23 := by omega
      have h4 : ¬ ((90 : Int) < 4 * ((n : Int) + 1)) := by omega
      simp [hu, ht, hc, h2, h3, h4, Buffer.write]
    · by_cases h2 : n = 22
      · subst h2
        simp [hu, ht, EXPRATE, realloc]
      · have h3 : ¬ n < 23 := by omega
        have h4 : ¬ n + 1 < 23 := by omega
        have h5 : ¬ ((180 : Int) < 4 * ((n : Int) + 1)) := by omega
        simp [hu, ht, hc, h3, h4, h5, Buffer.write]

/-- Recorded capacity and block size of a default-capacity slot after a
sequence of `Aadd` calls that brings it to at most 45 elements. -/
theorem Aadds_default (g : Garbage) (h : Int) (es : List Ptr) :
    ∀ (s : AState) (n : Nat), h ≤ s.controller.used_buckets →
      (s.controller.buckets h).used_buckets = n →
      (s.controller.buckets h).total_buckets = (if n < 23 then 30 else 60) →
      (s.controller.buckets h).buckets.cells = (if n < 23 then 30 else 46) →
      n + es.length ≤ 45 →
      ((Aadds g s h es).controller.buckets h).total_buckets =
        (if n + es.length < 23 then 30 else 60) ∧
      ((Aadds g s h es).controller.buckets h).buckets.cells =
        (if n + es.length < 23 then 30 else 46) := by
  induction es with
  | nil =>
    intro s n _ _ ht hc _
    simpa [Aadds] using ⟨ht, hc⟩
  | cons e es ih =>
    intro s n hv hu ht hc hlen
    simp only [List.length_cons] at hlen
    have hv1 : h ≤ (Aadd g s h e).2.controller.used_buckets := by
      simp [Aadd, hv, _Controller.store]
    have hslot : (Aadd g s h e).2.controller.buckets h =
        check g { s.controller.buckets h with
          buckets := (s.controller.buckets h).buckets.write (s.controller.buckets h).used_buckets e,
          used_buckets := (s.controller.buckets h).used_buckets + 1 } := by
      simp [Aadd, hv, _Controller.store]
    obtain ⟨k1, k2, k3⟩ := check_default_step g (s.controller.buckets h) e n hu ht hc (by omega)
    have := ih (Aadd g s h e).2 (n + 1) hv1 (by rw [hslot]; exact k1) (by rw [hslot]; exact k2)
      (by rw [hslot]; exact k3) (by omega)
    have hl : n + (e :: es).length = n + 1 + es.length := by simp; omega
    rw [hl]
    simpa [Aadds] using this

theorem Anew_slot (g : Garbage) (s : AState) (z : Int) :
    (Anew g s z).2.controller.buckets (Anew g s z).1 =
      { total_buckets := INITCAPACITY, used_buckets := 0, buckets := malloc g INITCAPACITY } := by
  simp [Anew, _Controller.store]

theorem ALnew_slot (g : Garbage) (s : AState) (c : Int) :
    (ALnew g s c).2.controller.buckets (ALnew g s c).1 =
      { total_buckets := c, used_buckets := 0, buckets := malloc g c } := by
  simp [ALnew, _Controller.store]

theorem Aget_accepted (s : AState) (h i : Int) (hv : h ≤ s.controller.used_buckets)
    (hi : i ≤ (s.controller.buckets h).total_buckets) :
    Aget s h i = ((s.controller.buckets h).buckets.mem i, s) := by
  simp [Aget, hv, hi]

/-- After 23 `Add` calls on a fresh array, or on a fresh array-list of
capacity 30, the recorded capacity is 60 and the block has 46 cells. -/
theorem capacity_after_23 (g : Garbage) (z : Int) (es : List Ptr) (hl : es.length = 23) :
    ((Abuild g (Ainit g) z es).2.controller.buckets
      (Abuild g (Ainit g) z es).1).total_buckets = 60 ∧
    ((Abuild g (Ainit g) z es).2.controller.buckets
      (Abuild g (Ainit g) z es).1).buckets.cells = 46 ∧
    Aget (Abuild g (Ainit g) z es).2 (Abuild g (Ainit g) z es).1 59 =
      (((Abuild g (Ainit g) z es).2.controller.buckets
        (Abuild g (Ainit g) z es).1).buckets.mem 59, (Abuild g (Ainit g) z es).2) ∧
    ((ALbuild g (Ainit g) 30 es).2.controller.buckets
      (ALbuild g (Ainit g) 30 es).1).total_buckets = 60 ∧
    ((ALbuild g (Ainit g) 30 es).2.controller.buckets
      (ALbuild g (Ainit g) 30 es).1).buckets.cells = 46 := by
  have hs : (0 : Int) ≤ (Ainit g).controller.used_buckets := by simp [Ainit]
  have HA := AHolds_new g (Ainit g) z hs
  have HL := AHolds_ALnew g (Ainit g) 30 hs (by decide)
  have hA := Aadds_default g (Anew g (Ainit g) z).1 es (Anew g (Ainit g) z).2 0 HA.1
    (by rw [Anew_slot]; rfl) (by rw [Anew_slot]; simp [INITCAPACITY])
    (by rw [Anew_slot]; simp [malloc, INITCAPACITY]) (by rw [hl]; omega)
  have hL := Aadds_default g (ALnew g (Ainit g) 30).1 es (ALnew g (Ainit g) 30).2 0 HL.1
    (by rw [ALnew_slot]; rfl) (by rw [ALnew_slot]; simp)
    (by rw [ALnew_slot]; simp [malloc]) (by rw [hl]; omega)
  rw [hl] at hA hL
  have HA2 := AHolds_adds g (Anew g (Ainit g) z).1 es (Anew g (Ainit g) z).2 [] HA
  rw [List.nil_append] at HA2
  have h60 : ((Aadds g (Anew g (Ainit g) z).2 (Anew g (Ainit g) z).1
      es).controller.buckets (Anew g (Ainit g) z).1).total_buckets = 60 := by
    simpa using hA.1
  refine ⟨by simpa [Abuild] using hA.1, by simpa [Abuild] using hA.2, ?_,
    by simpa [ALbuild, ALadds_eq_Aadds] using hL.1,
    by simpa [ALbuild, ALadds_eq_Aadds] using hL.2⟩
  exact Aget_accepted (Aadds g (Anew g (Ainit g) z).2 (Anew g (Ainit g) z).1 es)
    (Anew g (Ainit g) z).1 59 HA2.1 (by rw [h60]; decide)

/-- C26 on the code. After 23 `Add` calls on a fresh array, or on a fresh
array-list of capacity 30, `check` has asked `realloc` for
`used_buckets * 2 = 46` cells and set `total_buckets` to
`total_buckets * 2 = 60`: the recorded capacity exceeds the allocated block,
and `Aget(h, 59)` is accepted and reads cell 59 of the 46-cell block. -/
theorem C26_capacity_exceeds_allocation (g : Garbage) (z : Int) (f : Nat → Ptr) :
    ((Abuild g (Ainit g) z ((List.range 23).map f)).2.controller.buckets
      (Abuild g (Ainit g) z ((List.range 23).map f)).1).total_buckets = 60 ∧
    ((Abuild g (Ainit g) z ((List.range 23).map f)).2.controller.buckets
      (Abuild g (Ainit g) z ((List.range 23).map f)).1).buckets.cells = 46 ∧
    Aget (Abuild g (Ainit g) z ((List.range 23).map f)).2
        (Abuild g (Ainit g) z ((List.range 23).map f)).1 59 =
      (((Abuild g (Ainit g) z ((List.range 23).map f)).2.controller.buckets
        (Abuild g (Ainit g) z ((List.range 23).map f)).1).buckets.mem 59,
        (Abuild g (Ainit g) z ((List.range 23).map f)).2) ∧
    ((ALbuild g (Ainit g) 30 ((List.range 23).map f)).2.controller.buckets
      (ALbuild g (Ainit g) 30 ((List.range 23).map f)).1).total_buckets = 60 ∧
    ((ALbuild g (Ainit g) 30 ((List.range 23).map f)).2.controller.buckets
      (ALbuild g (Ainit g) 30 ((List.range 23).map f)).1).buckets.cells = 46 :=
  capacity_after_23 g z ((List.range 23).map f) (by simp)

/-! ## Out-of-block accesses of `Set` and `Remove` -/

theorem shiftRightInside_all (b : Buffer) (n : Nat) : ∀ j : Int,
    shiftRightInside b n j = true → ∀ k : Nat, k < n → b.inside (j + k) = true := by
  induction n with
  | zero => intro j _ k hk; omega
  | succ n ih =>
    intro j h k hk
    simp only [shiftRightInside, Bool.and_eq_true] at h
    cases k with
    | zero => simpa using h.1
    | succ k =>
      have := ih (j + 1) h.2 k (by omega)
      have e : j + 1 + (k : Int) = j + ((k + 1 : Nat) : Int) := by push_cast; ring
      rw [← e]; exact this

theorem shiftLeftInside_all (b : Buffer) (n : Nat) : ∀ j : Int,
    shiftLeftInside b n j = true → ∀ k : Nat, k < n → b.inside (j + k) = true := by
  induction n with
  | zero => intro j _ k hk; omega
  | succ n ih =>
    intro j h k hk
    simp only [shiftLeftInside, Bool.and_eq_true] at h
    cases k with
    | zero => simpa using h.1.1
    | succ k =>
      have := ih (j + 1) h.2 k (by omega)
      have e : j + 1 + (k : Int) = j + ((k + 1 : Nat) : Int) := by push_cast; ring
      rw [← e]; exact this

theorem inside_false (b : Buffer) (j : Int) (h : b.cells ≤ j) : b.inside j = false := by
  simp only [Buffer.inside, decide_eq_false_iff_not]
  omega

/-- The accesses of `Set` and `Remove` reach offset `total`: when the block
has at most `total` cells they are not all inside it. -/
theorem shift_reaches_total (b : Buffer) (total i : Int) (hc : b.cells ≤ total)
    (inl : Nat → Int → Bool)
    (hall : ∀ (n : Nat) (j : Int), inl n j = true → ∀ k : Nat, k < n → b.inside (j + k) = true) :
    (b.inside i && inl (total - i).toNat (i + 1)) = false := by
  by_cases hge : total ≤ i
  · rw [inside_false b i (by omega)]
    rfl
  · cases hl : inl (total - i).toNat (i + 1) with
    | false => simp
    | true =>
      exfalso
      have hn : (((total - i).toNat : Nat) : Int) = total - i := Int.toNat_of_nonneg (by omega)
      have hk := hall _ _ hl ((total - i).toNat - 1) (by omega)
      have e : i + 1 + (((total - i).toNat - 1 : Nat) : Int) = total := by omega
      rw [e, inside_false b total hc] at hk
      cases hk

/-- Every accepted `Aset` on a slot whose block has at most `total_buckets`
cells reads or writes outside the block. -/
theorem Aset_overrun (g : Garbage) (s : AState) (h i : Int) (e : Ptr)
    (hv : h ≤ s.controller.used_buckets) (hi : i ≤ (s.controller.buckets h).total_buckets)
    (hc : (s.controller.buckets h).buckets.cells ≤ (s.controller.buckets h).total_buckets) :
    (Aset g s h i e).2.overrun = true := by
  simp only [Aset, hv, hi, and_self, if_true]
  rw [shift_reaches_total _ _ i hc _ (shiftRightInside_all _)]
  simp

/-- Every accepted `Aremove` on a slot whose block has at most
`total_buckets` cells reads or writes outside the block. -/
theorem Aremove_overrun (s : AState) (h i : Int)
    (hv : h ≤ s.controller.used_buckets) (hi : i ≤ (s.controller.buckets h).total_buckets)
    (hc : (s.controller.buckets h).buckets.cells ≤ (s.controller.buckets h).total_buckets) :
    (Aremove s h i).2.overrun = true := by
  simp only [Aremove, hv, hi, and_self, if_true]
  rw [shift_reaches_total _ _ i hc _ (shiftLeftInside_all _)]
  simp

theorem ALset_overrun (g : Garbage) (s : AState) (h i : Int) (e : Ptr)
    (hv : h ≤ s.controller.used_buckets) (hi : i ≤ (s.controller.buckets h).used_buckets)
    (hc : (s.controller.buckets h).buckets.cells ≤ (s.controller.buckets h).total_buckets) :
    (ALset g s h i e).2.overrun = true := by
  simp only [ALset, hv, hi, and_self, if_true]
  rw [shift_reaches_total _ _ i hc _ (shiftRightInside_all _)]
  simp

theorem ALremove_overrun (s : AState) (h i : Int)
    (hv : h ≤ s.controller.used_buckets) (hi : i ≤ (s.controller.buckets h).total_buckets)
    (hc : (s.controller.buckets h).buckets.cells ≤ (s.controller.buckets h).total_buckets) :
    (ALremove s h i).2.overrun = true := by
  simp only [ALremove, hv, hi, and_self, if_true]
  rw [shift_reaches_total _ _ i hc _ (shiftLeftInside_all _)]
  simp

theorem Aadd_overrun (g : Garbage) (s : AState) (h : Int) (e : Ptr) :
    (Aadd g s h e).2.overrun = s.overrun := by
  unfold Aadd
  split <;> rfl

theorem Aadds_overrun (g : Garbage) (h : Int) (es : List Ptr) :
    ∀ s : AState, (Aadds g s h es).overrun = s.overrun := by
  induction es with
  | nil => intro s; rfl
  | cons e es ih =>
    intro s
    have := ih (Aadd g s h e).2
    rw [Aadd_overrun] at this
    simpa [Aadds] using this

theorem Abuild_overrun (g : Garbage) (s : AState) (z : Int) (es : List Ptr) :
    (Abuild g s z es).2.overrun = s.overrun := by
  simp only [Abuild, Aadds_overrun]
  rfl

theorem ALbuild_overrun (g : Garbage) (s : AState) (c : Int) (es : List Ptr) :
    (ALbuild g s c es).2.overrun = s.overrun := by
  simp only [ALbuild, ALadds_eq_Aadds, Aadds_overrun]
  rfl

/-- `Add` keeps the block no larger than the recorded capacity. -/
theorem Aadds_cells_le (g : Garbage) (h : Int) (es : List Ptr) :
    ∀ (s : AState) (es0 : List Ptr), AHolds s h es0 →
      (s.controller.buckets h).buckets.cells ≤ (s.controller.buckets h).total_buckets →
      ((Aadds g s h es).controller.buckets h).buckets.cells ≤
        ((Aadds g s h es).controller.buckets h).total_buckets := by
  induction es with
  | nil => intro s es0 _ hc; simpa [Aadds] using hc
  | cons e es ih =>
    intro s es0 H hc
    have H1 := AHolds_add g s h es0 e H
    have hstep : ((Aadd g s h e).2.controller.buckets h).buckets.cells ≤
        ((Aadd g s h e).2.controller.buckets h).total_buckets := by
      have hu := H.2.used
      have hl := H.2.load
      have ht := H.2.total_pos
      simp only [Aadd, H.1, if_true, _Controller.store, check]
      split
      · simp only [realloc, EXPRATE]
        omega
      · simpa [Buffer.write] using hc
    have := ih (Aadd g s h e).2 (es0 ++ [e]) H1 hstep
    simpa [Aadds] using this

theorem Abuild_cells_le (g : Garbage) (s : AState) (z : Int) (es : List Ptr)
    (hs : 0 ≤ s.controller.used_buckets) :
    ((Abuild g s z es).2.controller.buckets (Abuild g s z es).1).buckets.cells ≤
      ((Abuild g s z es).2.controller.buckets (Abuild g s z es).1).total_buckets := by
  have := Aadds_cells_le g (Anew g s z).1 es (Anew g s z).2 [] (AHolds_new g s z hs)
    (by rw [Anew_slot]; simp [malloc])
  simpa [Abuild] using this

theorem ALbuild_cells_le (g : Garbage) (s : AState) (c : Int) (es : List Ptr)
    (hs : 0 ≤ s.controller.used_buckets) (hc : 1 ≤ c) :
    ((ALbuild g s c es).2.controller.buckets (ALbuild g s c es).1).buckets.cells ≤
      ((ALbuild g s c es).2.controller.buckets (ALbuild g s c es).1).total_buckets := by
  have := Aadds_cells_le g (ALnew g s c).1 es (ALnew g s c).2 [] (AHolds_ALnew g s c hs hc)
    (by rw [ALnew_slot]; simp [malloc])
  simpa [ALbuild, ALadds_eq_Aadds] using this

/-- On a container built by `Add` on a fresh container (capacity at least 1),
every `Set(h, i, x)` with `0 ≤ i ≤ n` and every `Remove(h, i)` with
`0 ≤ i ≤ n` reads or writes a cell outside the allocated block: the shifting
loops run to offset `total_buckets` inclusive. -/
theorem built_set_remove_overrun (g : Garbage) (s t : AState) (z c : Int) (es : List Ptr)
    (i : Int) (x : Ptr) (hs : 0 ≤ s.controller.used_buckets)
    (ht : 0 ≤ t.controller.used_buckets) (hc : 1 ≤ c) (hi : i ≤ es.length) :
    (Aset g (Abuild g s z es).2 (Abuild g s z es).1 i x).2.overrun = true ∧
    (Aremove (Abuild g s z es).2 (Abuild g s z es).1 i).2.overrun = true ∧
    (ALset g (ALbuild g t c es).2 (ALbuild g t c es).1 i x).2.overrun = true ∧
    (ALremove (ALbuild g t c es).2 (ALbuild g t c es).1 i).2.overrun = true := by
  have HA := AHolds_build g s z es hs
  have HL := AHolds_ALbuild g t c es ht hc
  have a1 := HA.2.used
  have a2 := HA.2.load
  have l1 := HL.2.used
  have l2 := HL.2.load
  exact ⟨Aset_overrun g _ _ i x HA.1 (by omega) (Abuild_cells_le g s z es hs),
    Aremove_overrun _ _ i HA.1 (by omega) (Abuild_cells_le g s z es hs),
    ALset_overrun g _ _ i x HL.1 (by omega) (ALbuild_cells_le g t c es ht hc),
    ALremove_overrun _ _ i HL.1 (by omega) (ALbuild_cells_le g t c es ht hc)⟩

/-! ## Fresh lists, capacity 0 and accesses outside the block -/

/-- C3 on the code. `LLnew` writes only `used_buckets` of the slot it hands
out, so the `head` of a freshly created list is whatever the table memory
holds. On a table whose memory holds a non-null `head`, `h = LLnew()` returns
0 with `LLsize(h) = 0`, but the list is not empty: its `head` is the junk
pointer, and the first `LLadd(h, e)` walks it and has no result. -/
theorem C3_new_list_keeps_junk_head (a : Nat) (e : Ptr) :
    (LLnew (junkHead a) (LLinit (junkHead a))).1 = 0 ∧
    (LLsize (LLnew (junkHead a) (LLinit (junkHead a))).2 0).1 = 0 ∧
    ((LLnew (junkHead a) (LLinit (junkHead a))).2.controller.buckets 0).head = some a ∧
    LLadd (LLnew (junkHead a) (LLinit (junkHead a))).2 0 e = none ∧
    LLadds (LLnew (junkHead a) (LLinit (junkHead a))).2 0 [e] = none := by
  refine ⟨?_, ?_, ?_, ?_, ?_⟩ <;>
    simp [LLnew, LLinit, junkHead, getfreelist, getfreelistLoop, LL_Controller.store, LLsize,
      validhandler, LLadds, LLadd, lastNode, rd, LL_INITCAPACITY]

/-- C4 on the code. Array-list created with capacity 0, then `Add` of
`e0, e1, e2`: `ALsize(h)` is 3 but `total_buckets` is still 0, so
`ALremove(h, 1)` fails the test `i <= total_buckets`: it returns `NULL`, sets
`errno` to `EFAULT` and leaves `ALsize(h)` at 3. Array kind, default capacity,
same three elements: `Aremove(h, 1)` runs its loop to offset 30 of the
30-cell block and sets `overrun`. -/
theorem C4_remove_refused_at_capacity_zero (g : Garbage) (z : Int) (e0 e1 e2 : Ptr) :
    (ALsize (ALbuild g (Ainit g) 0 [e0, e1, e2]).2 (ALbuild g (Ainit g) 0 [e0, e1, e2]).1).1 = 3 ∧
    (ALremove (ALbuild g (Ainit g) 0 [e0, e1, e2]).2
      (ALbuild g (Ainit g) 0 [e0, e1, e2]).1 1).1 = none ∧
    (ALremove (ALbuild g (Ainit g) 0 [e0, e1, e2]).2
      (ALbuild g (Ainit g) 0 [e0, e1, e2]).1 1).2.errno = EFAULT ∧
    (ALsize (ALremove (ALbuild g (Ainit g) 0 [e0, e1, e2]).2
      (ALbuild g (Ainit g) 0 [e0, e1, e2]).1 1).2 (ALbuild g (Ainit g) 0 [e0, e1, e2]).1).1 = 3 ∧
    (Abuild g (Ainit g) z [e0, e1, e2]).2.overrun = false ∧
    (Aremove (Abuild g (Ainit g) z [e0, e1, e2]).2
      (Abuild g (Ainit g) z [e0, e1, e2]).1 1).2.overrun = true := by
  have hs : (0 : Int) ≤ (Ainit g).controller.used_buckets := by simp [Ainit]
  refine ⟨?_, ?_, ?_, ?_, ?_, ?_⟩
  · simp [ALbuild, ALadds, ALadd, ALsize, ALnew, Ainit, growTable, getfreearray, getfreeLoop,
      check_used, _Controller.store, INITCAPACITY]
  · simp [ALbuild, ALadds, ALadd, ALremove, ALnew, Ainit, growTable, getfreearray, getfreeLoop,
      check, _Controller.store, EXPRATE, INITCAPACITY]
  · simp [ALbuild, ALadds, ALadd, ALremove, ALnew, Ainit, growTable, getfreearray, getfreeLoop,
      check, _Controller.store, EXPRATE, INITCAPACITY]
  · simp [ALbuild, ALadds, ALadd, ALremove, ALsize, ALnew, Ainit, growTable, getfreearray,
      getfreeLoop, check, _Controller.store, EXPRATE, INITCAPACITY]
  · rw [Abuild_overrun]; rfl
  · exact (built_set_remove_overrun g (Ainit g) (Ainit g) z 1 [e0, e1, e2] 1 none hs hs
      (by decide) (by simp)).2.1

/-- C6 on the code. Array-list created with capacity 0, then `Add` of
`e0, e1`: `total_buckets` is still 0, so the shifting loop of
`ALset(h, 0, x)` makes no pass. The call returns `x` and `ALsize(h)` becomes
3, but nothing was shifted: cell 0 holds `x`, cell 1 still holds `e1`, and
`ALget(h, 1)` and `ALget(h, 2)` fail their capacity test and return `NULL`,
where the claim has `e0` and `e1`. Array kind, default capacity, same two
elements: `Aset(h, 0, x)` runs its loop to offset 30 of the 30-cell block and
sets `overrun`. -/
theorem C6_set_overwrites_at_capacity_zero (g : Garbage) (z : Int) (e0 e1 x : Ptr) :
    (ALset g (ALbuild g (Ainit g) 0 [e0, e1]).2 (ALbuild g (Ainit g) 0 [e0, e1]).1 0 x).1 = x ∧
    (ALsize (ALset g (ALbuild g (Ainit g) 0 [e0, e1]).2 (ALbuild g (Ainit g) 0 [e0, e1]).1 0 x).2
      (ALbuild g (Ainit g) 0 [e0, e1]).1).1 = 3 ∧
    (((ALset g (ALbuild g (Ainit g) 0 [e0, e1]).2
      (ALbuild g (Ainit g) 0 [e0, e1]).1 0 x).2.controller.buckets
      (ALbuild g (Ainit g) 0 [e0, e1]).1).buckets.mem 0 = x) ∧
    (((ALset g (ALbuild g (Ainit g) 0 [e0, e1]).2
      (ALbuild g (Ainit g) 0 [e0, e1]).1 0 x).2.controller.buckets
      (ALbuild g (Ainit g) 0 [e0, e1]).1).buckets.mem 1 = e1) ∧
    (ALget (ALset g (ALbuild g (Ainit g) 0 [e0, e1]).2 (ALbuild g (Ainit g) 0 [e0, e1]).1 0 x).2
      (ALbuild g (Ainit g) 0 [e0, e1]).1 1).1 = none ∧
    (ALget (ALset g (ALbuild g (Ainit g) 0 [e0, e1]).2 (ALbuild g (Ainit g) 0 [e0, e1]).1 0 x).2
      (ALbuild g (Ainit g) 0 [e0, e1]).1 2).1 = none ∧
    (Abuild g (Ainit g) z [e0, e1]).2.overrun = false ∧
    (Aset g (Abuild g (Ainit g) z [e0, e1]).2
      (Abuild g (Ainit g) z [e0, e1]).1 0 x).2.overrun = true := by
  have hs : (0 : Int) ≤ (Ainit g).controller.used_buckets := by simp [Ainit]
  refine ⟨?_, ?_, ?_, ?_, ?_, ?_, ?_, ?_⟩
  · simp [ALbuild, ALadds, ALadd, ALset, ALnew, Ainit, growTable, getfreearray, getfreeLoop,
      check_used, _Controller.store, INITCAPACITY]
  · simp [ALbuild, ALadds, ALadd, ALset, ALsize, ALnew, Ainit, growTable, getfreearray,
      getfreeLoop, check_used, _Controller.store, INITCAPACITY]
  · simp [ALbuild, ALadds, ALadd, ALset, ALnew, Ainit, growTable, getfreearray, getfreeLoop,
      check, _Controller.store, EXPRATE, INITCAPACITY, realloc, malloc, Buffer.write, shiftRight]
  · simp [ALbuild, ALadds, ALadd, ALset, ALnew, Ainit, growTable, getfreearray, getfreeLoop,
      check, _Controller.store, EXPRATE, INITCAPACITY, realloc, malloc, Buffer.write, shiftRight]
  · simp [ALbuild, ALadds, ALadd, ALset, ALget, ALnew, Ainit, growTable, getfreearray,
      getfreeLoop, check, _Controller.store, EXPRATE, INITCAPACITY]
  · simp [ALbuild, ALadds, ALadd, ALset, ALget, ALnew, Ainit, growTable, getfreearray,
      getfreeLoop, check, _Controller.store, EXPRATE, INITCAPACITY]
  · rw [Abuild_overrun]; rfl
  · exact (built_set_remove_overrun g (Ainit g) (Ainit g) z 1 [e0, e1] 0 x hs hs
      (by decide) (by simp)).1

/-- C16 on the code. Array-list created with capacity 0: the calls
`ALadd(h, e0)`, `ALadd(h, e1)`, `ALremove(h, 1)` have their indices in range,
but `total_buckets` is still 0 and the `Remove` is refused, so `ALsize(h)` is
2 afterwards, while the number of `Add` calls minus the number of `Remove`
calls is 1. -/
theorem C16_refused_remove_not_counted (g : Garbage) (e0 e1 : Ptr) :
    ALopsInRange g (ALnew g (Ainit g) 0).1 (ALnew g (Ainit g) 0).2
      [AOp.add e0, AOp.add e1, AOp.remove 1] ∧
    (ALsize (ALrun g (ALnew g (Ainit g) 0).1 (ALnew g (Ainit g) 0).2
      [AOp.add e0, AOp.add e1, AOp.remove 1]) (ALnew g (Ainit g) 0).1).1 = 2 ∧
    (numAdd [AOp.add e0, AOp.add e1, AOp.remove 1] : Int) -
      numRemove [AOp.add e0, AOp.add e1, AOp.remove 1] = 1 := by
  refine ⟨?_, ?_, ?_⟩
  · simp [ALopsInRange, AOp.inRange, ALapply, ALadd, ALsize, ALnew, Ainit, growTable,
      getfreearray, getfreeLoop, check_used, _Controller.store, INITCAPACITY]
  · simp [ALrun, ALapply, ALadd, ALremove, ALsize, ALnew, Ainit, growTable, getfreearray,
      getfreeLoop, check, _Controller.store, EXPRATE, INITCAPACITY]
  · simp [numAdd, numRemove]

/-- C20 on the code. After `Anew` and 23 `Aadd` calls the slot records 60
cells for a block of 46, with 23 elements and no access outside a block so
far. `Aset(h, 0, x)`, whose index is in range, then runs its loop
`while (j <= a->total_buckets)` up to offset 60 and writes the cells 46 to 60,
outside the block: the call sets `overrun`. The same call on the fresh, empty
array already leaves its 30-cell block at offset 30. -/
theorem C20_set_writes_past_block (g : Garbage) (z : Int) (f : Nat → Ptr) (x : Ptr) :
    ((Abuild g (Ainit g) z ((List.range 23).map f)).2.controller.buckets
      (Abuild g (Ainit g) z ((List.range 23).map f)).1).total_buckets = 60 ∧
    ((Abuild g (Ainit g) z ((List.range 23).map f)).2.controller.buckets
      (Abuild g (Ainit g) z ((List.range 23).map f)).1).buckets.cells = 46 ∧
    (Abuild g (Ainit g) z ((List.range 23).map f)).2.overrun = false ∧
    (Aset g (Abuild g (Ainit g) z ((List.range 23).map f)).2
      (Abuild g (Ainit g) z ((List.range 23).map f)).1 0 x).2.overrun = true ∧
    (Aset g (Anew g (Ainit g) z).2 (Anew g (Ainit g) z).1 0 x).2.overrun = true := by
  have hs : (0 : Int) ≤ (Ainit g).controller.used_buckets := by simp [Ainit]
  have h23 := capacity_after_23 g z ((List.range 23).map f) (by simp)
  refine ⟨h23.1, h23.2.1, ?_, ?_, ?_⟩
  · rw [Abuild_overrun]; rfl
  · exact (built_set_remove_overrun g (Ainit g) (Ainit g) z 1 ((List.range 23).map f) 0 x hs hs
      (by decide) (by simp)).1
  · exact (built_set_remove_overrun g (Ainit g) (Ainit g) z 1 [] 0 x hs hs
      (by decide) (by simp)).1

/-! ## `next` after an `Add`: the cached flag decides -/

end Ccol
